import Mathlib

/-!
# mlc-server: discount ledger and place sessions

A shallow embedding of `src/mlc-server` (`price.go`, `db.go`, `security.go`,
`main.go`) and theorems about it.

Conventions of the embedding.

* Go strings are lists of characters (`Str`).
* `uint32` values (`UserID`, `CashCount`) are natural numbers; arithmetic done
  in Go on `uint32` is written with an explicit `% 2 ^ 32`.
* The MySQL database is a `Store`: three tables, each a list of rows in
  insertion order.  Column values are natural numbers; reading a column into a
  Go `uint32` (`Scan`) fails when the value does not fit.
* Every statement sent to the database may fail for reasons outside the
  program (connection loss, constraint violation, range error).  `Faults`
  records which statements of one call fail; a failed statement changes nothing.
* A Go function that can panic returns an `Exec`.
-/

namespace MLC

/-- Go `string`. -/
abbrev Str := List Char

/-- The Go `error` values the embedded code produces or passes on. -/
inductive GoError where
  /-- `sql.ErrNoRows`: `QueryRow(...).Scan` found no row. -/
  | errNoRows
  /-- `Scan` could not convert a column into the destination type. -/
  | scanError
  /-- Any error reported by the database driver for a statement. -/
  | driverError
  /-- `errors.New("invalid auth token")`. -/
  | invalidAuthToken
  /-- `errors.New("auth token expired")`. -/
  | authTokenExpired
  /-- The `*time.ParseError` of `time.Parse`. -/
  | timeParseError
  /-- `http.ErrNoCookie` or a `securecookie` decoding error. -/
  | cookieError
  /-- The entropy source `crypto/rand` failed. -/
  | randError
  /-- `scrypt.Key` failed. -/
  | scryptError
  /-- `strconv.ParseUint` rejected its input. -/
  | parseUintError
  /-- An error of `Resource.CopyWithInserted`. -/
  | insertionError
  deriving DecidableEq, Repr

deriving instance DecidableEq for Except

/-- Row of table `cards`: `INSERT INTO cards VALUES(id, name, phone, mail, balance, count, gender)`. -/
structure Card where
  id : Nat
  name : Str
  phone : Str
  mail : Str
  balance : Nat
  count : Nat
  gender : Bool
  deriving DecidableEq, Repr

/-- Row of table `places`: `INSERT INTO places VALUES(id, name, hash, salt, cash)`. -/
structure Place where
  id : Nat
  name : Str
  hash : List Nat
  salt : Str
  cash : Nat
  deriving DecidableEq, Repr

/-- Row of table `operations`:
`INSERT INTO operations VALUES(id, card_id, place_id, amount, discount, cash_plus, time)`. -/
structure Operation where
  id : Nat
  card_id : Nat
  place_id : Nat
  amount : Nat
  discount : Nat
  cash_plus : Nat
  time : Int
  deriving DecidableEq, Repr

/-- The database behind the global `db` handle. -/
structure Store where
  places : List Place
  cards : List Card
  operations : List Operation
  deriving DecidableEq, Repr

/-- Which database statements fail during one call, by the Go function that
issues the statement. -/
structure Faults where
  getCardBalance : Bool
  getPlaceID : Bool
  countRows : Bool
  insertOperation : Bool
  addPlaceCash : Bool
  addCardBalance : Bool
  incrementCardCount : Bool
  insertCard : Bool
  insertPlace : Bool
  getCardHolderName : Bool
  deriving DecidableEq, Repr

/-- The run in which every statement succeeds. -/
def Faults.none : Faults :=
  ⟨false, false, false, false, false, false, false, false, false, false⟩

/-- Outcome of a Go call that may panic: it returns a value and leaves a
store, or it panics (the store is the one left at the panic). -/
inductive Exec (α : Type) where
  | returned (v : α) (s : Store)
  | panicked (s : Store)
  deriving DecidableEq, Repr

/-- The three tables `CountRows` is called with. -/
inductive Table where
  | places
  | operations
  | cards
  deriving DecidableEq, Repr

/-- `Scan` of an integer column into a Go `uint32`. -/
def scanUint32 (v : Nat) : Except GoError Nat :=
  if v < 2 ^ 32 then .ok v else .error .scanError

/-! ## price.go -/

/-- `GetMLCDiscountPercent` (price.go). -/
def GetMLCDiscountPercent (sum : Nat) : Nat :=
  if sum ≥ 65000 then 25
  else if sum ≥ 45000 then 20
  else if sum ≥ 35000 then 15
  else if sum ≥ 25000 then 10
  else 5

/-! ## db.go -/

/-- Number of rows of a table. -/
def Store.rowCount (s : Store) : Table → Nat
  | .places => s.places.length
  | .operations => s.operations.length
  | .cards => s.cards.length

/-- `CountRows`: `SELECT COUNT(*)` scanned into a `UserID`; any error panics
(`none`). -/
def CountRows (f : Faults) (s : Store) (table : Table) : Option Nat :=
  if f.countRows then none
  else
    match scanUint32 (s.rowCount table) with
    | .ok c => some c
    | .error _ => none

/-- `CountPlaces`. -/
def CountPlaces (f : Faults) (s : Store) : Option Nat := CountRows f s .places

/-- `CountOperations`. -/
def CountOperations (f : Faults) (s : Store) : Option Nat := CountRows f s .operations

/-- `CountCards`. -/
def CountCards (f : Faults) (s : Store) : Option Nat := CountRows f s .cards

/-- `GetPlaceID`: `SELECT id FROM places WHERE name = ?`, first row. -/
def GetPlaceID (f : Faults) (s : Store) (place : Str) : Except GoError Nat :=
  if f.getPlaceID then .error .driverError
  else
    match s.places.find? (fun p => p.name = place) with
    | none => .error .errNoRows
    | some p => scanUint32 p.id

/-- `GetCardBalance`: `SELECT balance FROM cards WHERE id = ?`, first row. -/
def GetCardBalance (f : Faults) (s : Store) (id : Nat) : Except GoError Nat :=
  if f.getCardBalance then .error .driverError
  else
    match s.cards.find? (fun c => c.id = id) with
    | none => .error .errNoRows
    | some c => scanUint32 c.balance

/-- `AddPlaceCash`: `UPDATE places SET cash = cash + ? WHERE id = ?`. -/
def AddPlaceCash (f : Faults) (s : Store) (place_id plus : Nat) : Option GoError × Store :=
  if f.addPlaceCash then (some .driverError, s)
  else
    (none, { s with places := s.places.map fun p =>
      if p.id = place_id then { p with cash := p.cash + plus } else p })

/-- `AddCardBalance`: `UPDATE cards SET balance = balance + ? WHERE id = ?`. -/
def AddCardBalance (f : Faults) (s : Store) (id plus : Nat) : Option GoError × Store :=
  if f.addCardBalance then (some .driverError, s)
  else
    (none, { s with cards := s.cards.map fun c =>
      if c.id = id then { c with balance := c.balance + plus } else c })

/-- `IncrementCardCount`: `UPDATE cards SET count = count + 1 WHERE id = ?`. -/
def IncrementCardCount (f : Faults) (s : Store) (id : Nat) : Option GoError × Store :=
  if f.incrementCardCount then (some .driverError, s)
  else
    (none, { s with cards := s.cards.map fun c =>
      if c.id = id then { c with count := c.count + 1 } else c })

/-- `InsertOperation`: the id is `CountOperations()`, evaluated before the
`INSERT`; `now` is `time.Now()`. -/
def InsertOperation (f : Faults) (now : Int) (s : Store)
    (card_id place_id amount discount cash_plus : Nat) : Exec (Option GoError) :=
  match CountOperations f s with
  | none => .panicked s
  | some id =>
    if f.insertOperation then .returned (some .driverError) s
    else
      .returned none { s with operations :=
        s.operations ++ [⟨id, card_id, place_id, amount, discount, cash_plus, now⟩] }

/-- `AddOperation`: returns `(discount, err)`.  The errors of `AddPlaceCash`,
`AddCardBalance` and `IncrementCardCount` are dropped, as in the source. -/
def AddOperation (f : Faults) (now : Int) (s : Store) (place : Str)
    (card amount cash : Nat) : Exec (Nat × Option GoError) :=
  match GetCardBalance f s card with
  | .error e => .returned (0, some e) s
  | .ok b =>
    match GetPlaceID f s place with
    | .error e => .returned (0, some e) s
    | .ok place_id =>
      let discount := (amount / 100 * GetMLCDiscountPercent b) % 2 ^ 32
      match InsertOperation f now s card place_id amount discount cash with
      | .panicked s1 => .panicked s1
      | .returned (some e) s1 => .returned (discount, some e) s1
      | .returned none s1 =>
        let s2 := (AddPlaceCash f s1 place_id discount).2
        let s3 := (AddCardBalance f s2 card amount).2
        let s4 := (IncrementCardCount f s3 card).2
        .returned (discount, none) s4

/-- `AddCard`: the id is `CountCards()`; returns `(id, err)`. -/
def AddCard (f : Faults) (s : Store) (name phone mail : Str) (balance : Nat)
    (gender : Bool) : Exec (Nat × Option GoError) :=
  match CountCards f s with
  | none => .panicked s
  | some id =>
    if f.insertCard then .returned (id, some .driverError) s
    else
      .returned (id, none)
        { s with cards := s.cards ++ [⟨id, name, phone, mail, balance, 0, gender⟩] }

/-- `InsertPlace`: `INSERT INTO places VALUES(?, ?, ?, ?, 0)`. -/
def InsertPlace (f : Faults) (s : Store) (id : Nat) (place : Str) (hash : List Nat)
    (salt : Str) : Option GoError × Store :=
  if f.insertPlace then (some .driverError, s)
  else (none, { s with places := s.places ++ [⟨id, place, hash, salt, 0⟩] })

/-! ## security.go: passwords -/

/-- The alphabet of `base64.StdEncoding`. -/
def base64Alphabet : List Char :=
  "ABCDEFGHIJKLMNOPQRSTUVWXYZabcdefghijklmnopqrstuvwxyz0123456789+/".toList

/-- The character of a 6-bit value. -/
def base64Char (v : Nat) : Char := base64Alphabet.getD (v % 64) 'A'

/-- `base64.StdEncoding.EncodeToString` on a list of bytes: three bytes give four
characters, a last group of one or two bytes is padded with `=`. -/
def base64Encode : List Nat → Str
  | [] => []
  | [b0] =>
    let v := (b0 % 256) * 65536
    [base64Char (v / 262144), base64Char (v / 4096), '=', '=']
  | [b0, b1] =>
    let v := (b0 % 256) * 65536 + (b1 % 256) * 256
    [base64Char (v / 262144), base64Char (v / 4096), base64Char (v / 64), '=']
  | b0 :: b1 :: b2 :: rest =>
    let v := (b0 % 256) * 65536 + (b1 % 256) * 256 + b2 % 256
    base64Char (v / 262144) :: base64Char (v / 4096) :: base64Char (v / 64) :: base64Char v ::
      base64Encode rest

/-- The primitives of `crypto/rand`, `securecookie` and `scrypt` the program
calls: `randRead n` is `rand.Read` on a buffer of `n` bytes, `randomKey n` is
`securecookie.GenerateRandomKey(n)` (empty on failure), `scryptKey` is
`scrypt.Key(password, salt, 16384, 8, 1, 16)`. -/
structure Crypto where
  randRead : Nat → Except GoError (List Nat)
  randomKey : Nat → List Nat
  scryptKey : Str → Str → Except GoError (List Nat)

/-- `CryptPassword`. -/
def CryptPassword (cr : Crypto) (password salt : Str) : Except GoError (List Nat) :=
  cr.scryptKey password salt

/-- `CryptNewPassword`: a fresh 16-byte salt, base64-encoded, and the hash. -/
def CryptNewPassword (cr : Crypto) (password : Str) : Except GoError (List Nat × Str) :=
  match cr.randRead 16 with
  | .error e => .error e
  | .ok saltb =>
    let salt := base64Encode saltb
    match CryptPassword cr password salt with
    | .error e => .error e
    | .ok hash => .ok (hash, salt)

/-- `GenCSRFToken`. -/
def GenCSRFToken (cr : Crypto) : Str := base64Encode (cr.randomKey 32)

/-- `AddPlace`: the id is `CountPlaces()`, evaluated after the password is hashed. -/
def AddPlace (cr : Crypto) (f : Faults) (s : Store) (place password : Str) :
    Exec (Option GoError) :=
  match CryptNewPassword cr password with
  | .error e => .returned (some e) s
  | .ok (hash, salt) =>
    match CountPlaces f s with
    | none => .panicked s
    | some id =>
      let r := InsertPlace f s id place hash salt
      .returned r.1 r.2

/-! ## Package `time` and `net/http` of the Go standard library, as far as `security.go` uses them

Instants are integers: nanoseconds since January 1 of year 1, 00:00:00 UTC
(the proleptic Gregorian calendar of package `time`).  A `time.Time` in the
location UTC is its instant; `time.Now()`, which is in the local zone, is an
instant together with the offset of the local zone in seconds east of UTC. -/

/-- Table `daysBefore` of package `time`: days of a non-leap year before month `m + 1`. -/
def daysBefore : Nat → Int
  | 0 => 0
  | 1 => 31
  | 2 => 59
  | 3 => 90
  | 4 => 120
  | 5 => 151
  | 6 => 181
  | 7 => 212
  | 8 => 243
  | 9 => 273
  | 10 => 304
  | 11 => 334
  | _ => 365

/-- `isLeap` of package `time`. -/
def isLeap (year : Int) : Bool :=
  decide (year % 4 = 0 ∧ (year % 100 ≠ 0 ∨ year % 400 = 0))

/-- `daysIn` of package `time`; months are 1 .. 12. -/
def daysIn (month : Int) (year : Int) : Int :=
  if month = 2 ∧ isLeap year = true then 29
  else daysBefore month.toNat - daysBefore (month - 1).toNat

/-- `norm` of package `time`: `(hi, lo)` with `lo` brought into `[0, base)`. -/
def norm (hi lo base : Int) : Int × Int := (hi + lo / base, lo % base)

/-- `daysSinceEpoch` of package `time`, counted from January 1 of year 1. -/
def daysSinceEpoch (year : Int) : Int :=
  let y := year - 1
  let n400 := y / 400
  let y := y - 400 * n400
  let n100 := y / 100
  let y := y - 100 * n100
  let n4 := y / 4
  let y := y - 4 * n4
  146097 * n400 + 36524 * n100 + 1461 * n4 + 365 * y

/-- The first half of `absDate` of package `time` on a day number (days since
January 1 of year 1): the year and the day of the year, from 0. -/
def absYearDay (days : Int) : Int × Int :=
  let n400 := days / 146097
  let d := days % 146097
  let n100 := d / 36524 - d / 36524 / 4
  let d := d - 36524 * n100
  let n4 := d / 1461
  let d := d - 1461 * n4
  let n := d / 365 - d / 365 / 4
  (400 * n400 + 100 * n100 + 4 * n4 + n + 1, d - 365 * n)

/-- The end of `absDate`: month (1 .. 12) and day of the month of day `day` of
a year without February 29, by the estimate "every month has 31 days", which is
too low by at most one month. -/
def monthEstimate (day : Int) : Int × Int :=
  let month := day / 31
  let e := daysBefore (month + 1).toNat
  if day ≥ e then (month + 2, day - e + 1)
  else (month + 1, day - daysBefore month.toNat + 1)

/-- The second half of `absDate`: the month (1 .. 12) and the day of the month
of day `yday` of a year that is a leap year or not. -/
def absMonthDay (leap : Bool) (yday : Int) : Int × Int :=
  if leap = true ∧ yday = 31 + 29 - 1 then (2, 29)
  else monthEstimate (if leap = true ∧ yday > 31 + 29 - 1 then yday - 1 else yday)

/-- `absDate` of package `time` on a day number: year, month and day of the month. -/
def absDate (days : Int) : Int × Int × Int :=
  let yd := absYearDay days
  let md := absMonthDay (isLeap yd.1) yd.2
  (yd.1, md.1, md.2)

/-- `time.Date(year, month, day, hour, min, sec, nsec, time.UTC)`. -/
def Date (year month day hour min sec nsec : Int) : Int :=
  let ym := norm year (month - 1) 12
  let sn := norm sec nsec 1000000000
  let ms := norm min sn.1 60
  let hm := norm hour ms.1 60
  let dh := norm day hm.1 24
  let d := daysSinceEpoch ym.1 + daysBefore ym.2.toNat
    + (if isLeap ym.1 = true ∧ ym.2 + 1 ≥ 3 then 1 else 0) + (dh.1 - 1)
  (d * 86400 + dh.2 * 3600 + hm.2 * 60 + ms.2) * 1000000000 + sn.2

/-- `t.AddDate(years, months, days)` for a `t` in the location UTC. -/
def AddDate (t : Int) (years months days : Int) : Int :=
  let sec := t / 1000000000
  let ymd := absDate (sec / 86400)
  let sod := sec % 86400
  Date (ymd.1 + years) (ymd.2.1 + months) (ymd.2.2 + days)
    (sod / 3600) (sod % 3600 / 60) (sod % 60) (t % 1000000000)

/-- `shortDayNames` of package `time`. -/
def shortDayNames : List Str :=
  ["Sun".toList, "Mon".toList, "Tue".toList, "Wed".toList, "Thu".toList, "Fri".toList,
    "Sat".toList]

/-- `shortMonthNames` of package `time`. -/
def shortMonthNames : List Str :=
  ["Jan".toList, "Feb".toList, "Mar".toList, "Apr".toList, "May".toList, "Jun".toList,
    "Jul".toList, "Aug".toList, "Sep".toList, "Oct".toList, "Nov".toList, "Dec".toList]

/-- The decimal digit `n % 10` as a character. -/
def digitChar (n : Nat) : Char := "0123456789".toList.getD (n % 10) '0'

/-- The last `width` decimal digits of `u`, most significant first. -/
def lastDigits (u : Nat) : Nat → Str
  | 0 => []
  | width + 1 => lastDigits (u / 10) width ++ [digitChar u]

/-- `appendInt` of package `time`: the decimal form of `x`, padded with leading
zeros to `width` digits, after a minus sign when `x` is negative. -/
def appendInt (x : Int) (width : Nat) : Str :=
  (if x < 0 then ['-'] else []) ++
    (if x.natAbs < 10 ^ width then lastDigits x.natAbs width else (Nat.repr x.natAbs).toList)

/-- `t.Format(http.TimeFormat)`, layout "Mon, 02 Jan 2006 15:04:05 GMT", for
the instant `t` shown in a zone `offset` seconds east of UTC.  The layout
prints the wall clock of the zone and the fixed text "GMT". -/
def FormatHTTPTime (t offset : Int) : Str :=
  let sec := t / 1000000000 + offset
  let days := sec / 86400
  let sod := sec % 86400
  let ymd := absDate days
  shortDayNames.getD ((days + 1) % 7).toNat [] ++ ", ".toList ++ appendInt ymd.2.2 2 ++
    " ".toList ++ shortMonthNames.getD (ymd.2.1 - 1).toNat [] ++ " ".toList ++
    appendInt ymd.1 4 ++ " ".toList ++ appendInt (sod / 3600) 2 ++ ":".toList ++
    appendInt (sod % 3600 / 60) 2 ++ ":".toList ++ appendInt (sod % 60) 2 ++ " GMT".toList

/-- `isDigit` of package `time`: is byte `i` of `s` a decimal digit. -/
def isDigit (s : Str) (i : Nat) : Bool :=
  match s.get? i with
  | some c => decide (48 ≤ c.toNat ∧ c.toNat ≤ 57)
  | none => false

/-- The value of a digit character. -/
def digitVal (c : Char) : Int := (c.toNat - 48 : Nat)

/-- `getnum` of package `time`: a number of one or two digits (two when `fixed`). -/
def getnum (s : Str) (fixed : Bool) : Option (Int × Str) :=
  if !isDigit s 0 then none
  else if !isDigit s 1 then
    if fixed then none
    else
      match s with
      | c :: rest => some (digitVal c, rest)
      | [] => none
  else
    match s with
    | c0 :: c1 :: rest => some (digitVal c0 * 10 + digitVal c1, rest)
    | _ => none

/-- ASCII lower case of a letter, as `match` of package `time` compares. -/
def lowerASCII (c : Char) : Char :=
  if 65 ≤ c.toNat ∧ c.toNat ≤ 90 then Char.ofNat (c.toNat + 32) else c

/-- `match` of package `time`: equality of two strings of the same length,
ignoring the case of ASCII letters. -/
def matchFold : Str → Str → Bool
  | [], [] => true
  | c1 :: s1, c2 :: s2 =>
    if c1 = c2 then matchFold s1 s2
    else
      let l1 := lowerASCII c1
      let l2 := lowerASCII c2
      if l1 = l2 ∧ 97 ≤ l1.toNat ∧ l1.toNat ≤ 122 then matchFold s1 s2 else false
  | _, _ => false

/-- `lookup` of package `time`: the index of the first entry of `tab` that
`val` starts with (ignoring case), and the rest of `val`. -/
def lookupFrom : List Str → Nat → Str → Option (Nat × Str)
  | [], _, _ => none
  | v :: tab, i, val =>
    if val.length ≥ v.length ∧ matchFold (val.take v.length) v = true then
      some (i, val.drop v.length)
    else lookupFrom tab (i + 1) val

/-- `lookup` of package `time`. -/
def lookup (tab : List Str) (val : Str) : Option (Nat × Str) := lookupFrom tab 0 val

/-- `cutspace` of package `time`. -/
def cutspace (s : Str) : Str := s.dropWhile fun c => c = ' '

/-- `skip` of package `time`: remove the literal text `pfx` of the layout from
`value`; a run of spaces of the layout stands for any run of spaces of the
value.  `inSpace` says that the previous byte of `pfx` was a space of a run
already matched. -/
def skipFrom : Str → Str → Bool → Option Str
  | [], value, _ => some value
  | p :: pfx, value, inSpace =>
    if p = ' ' then
      if inSpace then skipFrom pfx value true
      else
        match value with
        | [] => skipFrom pfx [] true
        | c :: _ => if c ≠ ' ' then none else skipFrom pfx (cutspace value) true
    else
      match value with
      | [] => none
      | c :: rest => if c ≠ p then none else skipFrom pfx rest false

/-- `skip` of package `time`. -/
def skip (value pfx : Str) : Option Str := skipFrom pfx value false

/-- The number a string of decimal digits denotes (`atoi` on digits). -/
def digitsVal (s : Str) : Int := s.foldl (fun n c => n * 10 + digitVal c) 0

/-- The year of layout element "2006": exactly four digits. -/
def getyear (value : Str) : Option (Int × Str) :=
  if value.length < 4 ∨ isDigit value 0 = false then none
  else
    let p := value.take 4
    if p.all (fun c => decide (48 ≤ c.toNat ∧ c.toNat ≤ 57)) then some (digitsVal p, value.drop 4)
    else none

/-- The fractional second `time.Parse` accepts after the seconds although the
layout has none: a period or comma and a run of digits, of which nine count. -/
def getfraction (value : Str) : Int × Str :=
  match value with
  | c :: rest =>
    if (c = '.' ∨ c = ',') ∧ isDigit rest 0 = true then
      let ds := rest.takeWhile fun c => decide (48 ≤ c.toNat ∧ c.toNat ≤ 57)
      let ds9 := ds.take 9
      (digitsVal ds9 * 10 ^ (9 - ds9.length), rest.drop ds.length)
    else (0, value)
  | [] => (0, value)

/-- The part "Mon, 02 Jan 2006" of `time.Parse(http.TimeFormat, value)`: the
day, the month (1 .. 12), the year and the rest of the value.  The weekday is
read and not compared with the date. -/
def parseHTTPDate (value : Str) : Option (Int × Int × Int × Str) :=
  (lookup shortDayNames value).bind fun wd =>
  (skip wd.2 ", ".toList).bind fun v =>
  (getnum v true).bind fun day =>
  (skip day.2 " ".toList).bind fun v =>
  (lookup shortMonthNames v).bind fun mon =>
  (skip mon.2 " ".toList).bind fun v =>
  (getyear v).bind fun year =>
  some (day.1, (mon.1 : Int) + 1, year.1, year.2)

/-- The part "15:04:05" of `time.Parse(http.TimeFormat, value)`: hour, minute,
second, nanosecond and the rest of the value. -/
def parseHTTPClock (value : Str) : Option (Int × Int × Int × Int × Str) :=
  (getnum value false).bind fun hour =>
  if hour.1 < 0 ∨ 24 ≤ hour.1 then none
  else
  (skip hour.2 ":".toList).bind fun v =>
  (getnum v true).bind fun min =>
  if min.1 < 0 ∨ 60 ≤ min.1 then none
  else
  (skip min.2 ":".toList).bind fun v =>
  (getnum v true).bind fun sec =>
  if sec.1 < 0 ∨ 60 ≤ sec.1 then none
  else
    let frac := getfraction sec.2
    some (hour.1, min.1, sec.1, frac.1, frac.2)

/-- `time.Parse(http.TimeFormat, value)`: the instant, in the location UTC. -/
def ParseHTTPTime (value : Str) : Except GoError Int :=
  let r : Option Int :=
    (parseHTTPDate value).bind fun d =>
    (skip d.2.2.2 " ".toList).bind fun v =>
    (parseHTTPClock v).bind fun c =>
    (skip c.2.2.2.2 " GMT".toList).bind fun v =>
    if v ≠ [] then none
    else if d.1 < 1 ∨ d.1 > daysIn d.2.1 d.2.2.1 then none
    else some (Date d.2.2.1 d.2.1 d.1 c.1 c.2.1 c.2.2.1 c.2.2.2.1)
  match r with
  | some t => .ok t
  | none => .error .timeParseError

/-- `strings.Split(s, sep)` for a separator of one byte. -/
def Split (s : Str) (sep : Char) : List Str :=
  match s with
  | [] => [[]]
  | c :: rest =>
    if c = sep then [] :: Split rest sep
    else
      match Split rest sep with
      | [] => [[c]]
      | field :: fields => (c :: field) :: fields

/-! ## security.go: the session cookie -/

/-- `AuthPlace`: the value given to the cookie "mlc-place-auth".  `now` is the
instant of `time.Now()` and `zone` the offset of the local zone. -/
def AuthPlace (cr : Crypto) (now zone : Int) (place : Str) : Str :=
  place ++ ";".toList ++ FormatHTTPTime now zone ++ ";".toList ++ GenCSRFToken cr

/-- `DeauthPlace`: the value given to the cookie "mlc-place-auth". -/
def DeauthPlace : Str := "".toList

/-- `ParsePlaceAuth`: `(place, csrf, err)`.  `cookie` is what `GetSecureCookie`
returns for "mlc-place-auth", `now` the instant of `time.Now()`. -/
def ParsePlaceAuth (now : Int) (cookie : Except GoError Str) : Str × Str × Option GoError :=
  match cookie with
  | .error e => ([], [], some e)
  | .ok val =>
    let data := Split val ';'
    if data.length ≠ 3 then ([], [], some .invalidAuthToken)
    else
      let place := data.getD 0 []
      match ParseHTTPTime (data.getD 1 []) with
      | .error e => (place, [], some e)
      | .ok t =>
        if now > AddDate t 0 0 1 then (place, [], some .authTokenExpired)
        else (place, data.getD 2 [], none)

/-- `t.Year()` for a `t` in the location UTC. -/
def Year (t : Int) : Int := (absDate (t / 1000000000 / 86400)).1

/-! ## db.go: parsing and printing numbers -/

/-- `lower` of package `strconv`: the byte with bit `0x20` set. -/
def lowerByte (c : Char) : Nat := if c.toNat / 32 % 2 = 0 then c.toNat + 32 else c.toNat

/-- The digit value `strconv.ParseUint` gives a byte, if it is a digit or a letter. -/
def digitOfByte (c : Char) : Option Nat :=
  if 48 ≤ c.toNat ∧ c.toNat ≤ 57 then some (c.toNat - 48)
  else if 97 ≤ lowerByte c ∧ lowerByte c ≤ 122 then some (lowerByte c - 97 + 10)
  else none

/-- The digit loop of `strconv.ParseUint(s, 0, 32)`: underscores are skipped
and counted, a digit not below the base is a syntax error, a value above
`2^32 - 1` a range error. -/
def parseUintLoop (base : Nat) : Str → Nat → Bool → Except GoError (Nat × Bool)
  | [], n, underscores => .ok (n, underscores)
  | c :: rest, n, underscores =>
    if c = '_' then parseUintLoop base rest n true
    else
      match digitOfByte c with
      | none => .error .parseUintError
      | some d =>
        if d ≥ base then .error .parseUintError
        else if n * base + d > 2 ^ 32 - 1 then .error .parseUintError
        else parseUintLoop base rest (n * base + d) underscores

/-- The scan of `underscoreOK` of package `strconv`; `saw` is the class of the
last byte: '0' digit, '_' underscore, '!' other, '^' start. -/
def underscoreScan (hex : Bool) : Str → Char → Bool
  | [], saw => saw ≠ '_'
  | c :: rest, saw =>
    if (48 ≤ c.toNat ∧ c.toNat ≤ 57) ∨ (hex = true ∧ 97 ≤ lowerByte c ∧ lowerByte c ≤ 102) then
      underscoreScan hex rest '0'
    else if c = '_' then
      if saw ≠ '0' then false else underscoreScan hex rest '_'
    else if saw = '_' then false
    else underscoreScan hex rest '!'

/-- `underscoreOK` of package `strconv`: underscores only between digits or
between the base prefix and a digit. -/
def underscoreOK (s : Str) : Bool :=
  let s := match s with
    | c :: rest => if c = '-' ∨ c = '+' then rest else s
    | [] => s
  match s with
  | c0 :: c1 :: rest =>
    if c0 = '0' ∧ (lowerByte c1 = 98 ∨ lowerByte c1 = 111 ∨ lowerByte c1 = 120) then
      underscoreScan (decide (lowerByte c1 = 120)) rest '0'
    else underscoreScan false s '^'
  | _ => underscoreScan false s '^'

/-- `strconv.ParseUint(s, 0, 32)`: base 10, or the base of a prefix "0b", "0o",
"0x", or base 8 after a leading "0". -/
def ParseUint32 (s : Str) : Except GoError Nat :=
  match s with
  | [] => .error .parseUintError
  | c0 :: rest =>
    let baseDigits : Nat × Str :=
      if c0 = '0' then
        match rest with
        | c1 :: c2 :: rest2 =>
          if lowerByte c1 = 98 then (2, c2 :: rest2)
          else if lowerByte c1 = 111 then (8, c2 :: rest2)
          else if lowerByte c1 = 120 then (16, c2 :: rest2)
          else (8, rest)
        | _ => (8, rest)
      else (10, s)
    match parseUintLoop baseDigits.1 baseDigits.2 0 false with
    | .error e => .error e
    | .ok (n, underscores) =>
      if underscores = true ∧ underscoreOK s = false then .error .parseUintError
      else .ok n

/-- `ParseUserID`. -/
def ParseUserID (s : Str) : Except GoError Nat := ParseUint32 s

/-- `ParseCashCount`. -/
def ParseCashCount (s : Str) : Except GoError Nat := ParseUint32 s

/-- `FormatUserID`: `strconv.FormatUint(uint64(id), 10)`. -/
def FormatUserID (id : Nat) : Str := (Nat.repr id).toList

/-- `FormatCashCount`: `strconv.FormatUint(uint64(c), 10)`. -/
def FormatCashCount (c : Nat) : Str := (Nat.repr c).toList

/-- `GetCardHolderName`: `SELECT name FROM cards WHERE id = ?`, first row. -/
def GetCardHolderName (f : Faults) (s : Store) (id : Nat) : Except GoError Str :=
  if f.getCardHolderName then .error .driverError
  else
    match s.cards.find? (fun c => c.id = id) with
    | none => .error .errNoRows
    | some c => .ok c.name

/-! ## resource.go -/

/-- `Resource.CopyWithInserted`: the data of the page, the insertions put
between the components of the split template. -/
def CopyWithInserted (spl : List Str) (ins : List Str) : Except GoError Str :=
  if spl.length < 2 then .error .insertionError
  else if spl.length - 1 ≠ ins.length then .error .insertionError
  else .ok (spl.headD [] ++ (List.zipWith (fun i c => i ++ c) ins spl.tail).flatten)

/-! ## main.go: the request handlers -/

/-- A request as the handlers read it: what `GetSecureCookie` returns for the
cookie "mlc-place-auth", and `r.FormValue`. -/
structure Request where
  cookie : Except GoError Str
  form : Str → Str

/-- What a handler writes: a redirect (`HTTPRedirect`), a page (`ServeHTTP` of
a resource with this data) or an error status (`HTTPError`). -/
inductive Response where
  | redirect (url : Str)
  | page (data : Str)
  | error (code : Nat)
  deriving DecidableEq, Repr

/-- The calls of a handler that the claims name. -/
inductive Invocation where
  | addOperation (place : Str) (card amount cash : Nat)
  | addCard (name phone mail : Str) (balance : Nat) (gender : Bool)
  | deauthPlace
  deriving DecidableEq, Repr

/-- The split templates loaded at start-up (`TextPlaceholderSplit`). -/
structure Pages where
  placeOpSpl : List Str
  opSuccessSpl : List Str
  newUserSpl : List Str
  adminSuccessSpl : List Str

/-- What one run of a handler did: the response (`none` when the handler
panicked), the store it left, the value it gave the cookie "mlc-place-auth"
(`none` when it set no cookie) and the calls it made. -/
structure Handled where
  response : Option Response
  store : Store
  setCookie : Option Str
  invoked : List Invocation
  deriving DecidableEq, Repr

/-- The page of a template with insertions, or status 500 when the insertion fails. -/
def servePage (spl : List Str) (ins : List Str) : Response :=
  match CopyWithInserted spl ins with
  | .error _ => .error 500
  | .ok data => .page data

/-- The handler of "/place/op".  `now` is the instant at which the session is
checked, `opNow` the instant at which the operation row is written. -/
def handlePlaceOp (pages : Pages) (f : Faults) (now opNow : Int) (s : Store) (r : Request) :
    Handled :=
  match ParsePlaceAuth now r.cookie with
  | (_, _, some _) => ⟨some (.redirect "/place/auth".toList), s, none, []⟩
  | (place, csrf, none) =>
    if r.form "CSRFToken".toList ≠ csrf then
      ⟨some (servePage pages.placeOpSpl [csrf]), s, none, []⟩
    else
      let cardStr := r.form "card".toList
      let amountStr := r.form "amount".toList
      let cashStr := r.form "plus".toList
      match ParseUserID cardStr, ParseCashCount amountStr, ParseCashCount cashStr with
      | .ok card, .ok amount, .ok cash =>
        let inv := [Invocation.addOperation place card amount cash]
        match AddOperation f opNow s place card amount cash with
        | .panicked s1 => ⟨none, s1, none, inv⟩
        | .returned (_, some _) s1 => ⟨some (.redirect "/place/error".toList), s1, none, inv⟩
        | .returned (discount, none) s1 =>
          let name := match GetCardHolderName f s1 card with
            | .ok n => n
            | .error _ => []
          let total := (amount + 2 ^ 32 - discount) % 2 ^ 32
          if amount = 0 then ⟨none, s1, none, inv⟩
          else
            ⟨some (servePage pages.opSuccessSpl
              [name, cardStr, amountStr,
                FormatCashCount (discount * 100 % 2 ^ 32 / amount), FormatCashCount discount,
                amountStr, FormatCashCount total,
                FormatCashCount ((cash + 2 ^ 32 - total) % 2 ^ 32)]), s1, none, inv⟩
      | _, _, _ => ⟨some (.redirect "/place/error".toList), s, none, []⟩

/-- The handler of "/admin/new_user". -/
def handleAdminNewUser (pages : Pages) (f : Faults) (now : Int) (s : Store) (r : Request) :
    Handled :=
  match ParsePlaceAuth now r.cookie with
  | (_, _, some _) => ⟨some (.redirect "/place/auth".toList), s, none, []⟩
  | (place, csrf, none) =>
    if place ≠ "admin".toList then ⟨some (.redirect "/place/main".toList), s, none, []⟩
    else if r.form "CSRFToken".toList ≠ csrf then
      ⟨some (servePage pages.newUserSpl [csrf]), s, none, []⟩
    else
      match ParseCashCount (r.form "balance".toList) with
      | .error _ => ⟨some (.redirect "/place/error".toList), s, none, []⟩
      | .ok balance =>
        let g : Option Bool :=
          if r.form "gender".toList = "m".toList then some true
          else if r.form "gender".toList = "f".toList then some false
          else none
        match g with
        | none => ⟨some (.redirect "/place/error".toList), s, none, []⟩
        | some gender =>
          let inv := [Invocation.addCard (r.form "name".toList) (r.form "phone".toList)
            (r.form "mail".toList) balance gender]
          match AddCard f s (r.form "name".toList) (r.form "phone".toList)
              (r.form "mail".toList) balance gender with
          | .panicked s1 => ⟨none, s1, none, inv⟩
          | .returned (_, some _) s1 => ⟨some (.error 500), s1, none, inv⟩
          | .returned (id, none) s1 =>
            ⟨some (servePage pages.adminSuccessSpl [FormatUserID id]), s1, none, inv⟩

/-- The handler of "/place/logout". -/
def handlePlaceLogout (now : Int) (s : Store) (r : Request) : Handled :=
  match ParsePlaceAuth now r.cookie with
  | (_, csrf, none) =>
    if r.form "CSRFToken".toList = csrf then
      ⟨some (.redirect "/place/auth".toList), s, some DeauthPlace, [.deauthPlace]⟩
    else ⟨some (.redirect "/place/main".toList), s, none, []⟩
  | (_, _, some _) => ⟨some (.redirect "/place/main".toList), s, none, []⟩

/-! ## Calls executed one after another -/

/-- One call of `AddCard`: the statements that fail during it and its arguments. -/
structure CardCall where
  faults : Faults
  name : Str
  phone : Str
  mail : Str
  balance : Nat
  gender : Bool

/-- One call of `InsertOperation`. -/
structure OperationCall where
  faults : Faults
  now : Int
  card_id : Nat
  place_id : Nat
  amount : Nat
  discount : Nat
  cash_plus : Nat

/-- One call of `AddPlace`. -/
structure PlaceCall where
  crypto : Crypto
  faults : Faults
  place : Str
  password : Str

/-- What one call of a sequence produced: its return value, or `none` when it panicked. -/
def Exec.result {α : Type} : Exec α → Option α
  | .returned v _ => some v
  | .panicked _ => none

/-- The store a call leaves. -/
def Exec.store {α : Type} : Exec α → Store
  | .returned _ s => s
  | .panicked s => s

/-- `AddCard` called once per element of `calls`, each call on the store the
previous one left: the results in order and the final store. -/
def AddCardSeq (s : Store) : List CardCall → List (Option (Nat × Option GoError)) × Store
  | [] => ([], s)
  | c :: cs =>
    let r := AddCard c.faults s c.name c.phone c.mail c.balance c.gender
    let rest := AddCardSeq r.store cs
    (r.result :: rest.1, rest.2)

/-- `InsertOperation` called once per element of `calls`. -/
def InsertOperationSeq (s : Store) : List OperationCall → List (Option (Option GoError)) × Store
  | [] => ([], s)
  | c :: cs =>
    let r := InsertOperation c.faults c.now s c.card_id c.place_id c.amount c.discount c.cash_plus
    let rest := InsertOperationSeq r.store cs
    (r.result :: rest.1, rest.2)

/-- `AddPlace` called once per element of `calls`. -/
def AddPlaceSeq (s : Store) : List PlaceCall → List (Option (Option GoError)) × Store
  | [] => ([], s)
  | c :: cs =>
    let r := AddPlace c.crypto c.faults s c.place c.password
    let rest := AddPlaceSeq r.store cs
    (r.result :: rest.1, rest.2)

/-- The ids returned by the calls of `AddCard` that returned a nil error. -/
def returnedIds : List (Option (Nat × Option GoError)) → List Nat
  | [] => []
  | some (id, none) :: rs => id :: returnedIds rs
  | _ :: rs => returnedIds rs

/-- The number of calls that returned a nil error. -/
def successes : List (Option (Option GoError)) → Nat
  | [] => 0
  | some none :: rs => successes rs + 1
  | _ :: rs => successes rs

/-- A source of randomness and a key derivation that never fail, for the examples. -/
def exampleCrypto : Crypto :=
  { randRead := fun n => .ok (List.replicate n 7)
    randomKey := fun n => List.replicate n 9
    scryptKey := fun password salt => .ok [password.length, salt.length] }

/-- A store whose three tables hold the ids 0 and 1. -/
def seqStore : Store :=
  { places := [⟨0, "shop1".toList, [], [], 0⟩, ⟨1, "admin".toList, [], [], 0⟩]
    cards := [⟨1, "Ann".toList, [], [], 100, 1, false⟩, ⟨0, "Bob".toList, [], [], 30000, 4, true⟩]
    operations := [⟨0, 0, 0, 200, 10, 200, 1⟩, ⟨1, 1, 0, 300, 15, 300, 2⟩] }

/-- Two calls of `AddCard` in which no statement fails. -/
def exampleCardCalls : List CardCall :=
  [⟨Faults.none, "Eve".toList, [], [], 0, false⟩, ⟨Faults.none, "Dan".toList, [], [], 50, true⟩]

/-- Two calls of `InsertOperation` in which no statement fails. -/
def exampleOperationCalls : List OperationCall :=
  [⟨Faults.none, 3, 0, 0, 100, 5, 100⟩, ⟨Faults.none, 4, 1, 0, 200, 10, 200⟩]

/-- One call of `AddPlace` in which nothing fails. -/
def examplePlaceCalls : List PlaceCall :=
  [⟨exampleCrypto, Faults.none, "shop2".toList, "pw".toList⟩]

/-- A session payload of three fields whose timestamp is 2016-06-15 12:30:45. -/
def examplePayload : Str := "shop1;Wed, 15 Jun 2016 12:30:45 GMT;c2VjcmV0".toList

/-- The instant 2016-06-15 12:30:45 UTC. -/
def exampleInstant : Int := Date 2016 6 15 12 30 45 0

/-- The templates of the examples. -/
def examplePages : Pages :=
  { placeOpSpl := ["<form>".toList, "</form>".toList]
    opSuccessSpl := ["a".toList, "b".toList, "c".toList, "d".toList, "e".toList, "f".toList,
      "g".toList, "h".toList, "i".toList]
    newUserSpl := ["<form>".toList, "</form>".toList]
    adminSuccessSpl := ["id ".toList, ".".toList] }

/-- A request with the session of `examplePayload` and the given form value "CSRFToken". -/
def exampleRequest (token : Str) : Request :=
  { cookie := .ok examplePayload
    form := fun k => if k = "CSRFToken".toList then token else [] }

/-- A request of place "admin" with the given form value "CSRFToken". -/
def exampleAdminRequest (token : Str) : Request :=
  { cookie := .ok "admin;Wed, 15 Jun 2016 12:30:45 GMT;c2VjcmV0".toList
    form := fun k => if k = "CSRFToken".toList then token else [] }

/-- A request to "/place/op" with the session of `examplePayload`, its token
as form value "CSRFToken", card "7" and the given form values "amount" and "plus". -/
def exampleOpRequest (amount plus : Str) : Request :=
  { cookie := .ok examplePayload
    form := fun k =>
      if k = "CSRFToken".toList then "c2VjcmV0".toList
      else if k = "card".toList then "7".toList
      else if k = "amount".toList then amount
      else if k = "plus".toList then plus
      else [] }

/-- The run in which the three `UPDATE` statements of `AddOperation` fail and
everything else succeeds. -/
def Faults.updates : Faults :=
  ⟨false, false, false, false, true, true, true, false, false, false⟩

/-- A store used in the examples: place "shop1" (id 0) and card 7 with balance 30000. -/
def shopStore : Store :=
  { places := [⟨0, "shop1".toList, [1, 2, 3], "c2FsdA==".toList, 500⟩,
               ⟨1, "admin".toList, [4, 5, 6], "c2FsdA==".toList, 0⟩]
    cards := [⟨3, "Ann".toList, [], [], 100, 1, false⟩,
              ⟨7, "Bob".toList, [], [], 30000, 4, true⟩]
    operations := [] }

/-! # Theorems -/

/-! ## Helper lemmas: the discount and the store updates -/

theorem GetMLCDiscountPercent_le (b : Nat) : GetMLCDiscountPercent b ≤ 25 := by
  unfold GetMLCDiscountPercent
  split_ifs <;> omega

theorem discount_lt (amount b : Nat) (ha : amount < 2 ^ 32) :
    amount / 100 * GetMLCDiscountPercent b < 2 ^ 32 := by
  have h1 := GetMLCDiscountPercent_le b
  have h2 : amount / 100 ≤ 42949672 := by omega
  calc amount / 100 * GetMLCDiscountPercent b
      ≤ 42949672 * 25 := Nat.mul_le_mul h2 h1
    _ < 2 ^ 32 := by norm_num

theorem discount_mod (amount b : Nat) (ha : amount < 2 ^ 32) :
    (amount / 100 * GetMLCDiscountPercent b) % 2 ^ 32
      = amount / 100 * GetMLCDiscountPercent b :=
  Nat.mod_eq_of_lt (discount_lt amount b ha)

theorem scanUint32_ok (v : Nat) (h : v < 2 ^ 32) : scanUint32 v = .ok v := by
  unfold scanUint32
  rw [if_pos h]

theorem scanUint32_error (v : Nat) (h : ¬ v < 2 ^ 32) : scanUint32 v = .error .scanError := by
  unfold scanUint32
  rw [if_neg h]

theorem CountRows_eq_some (f : Faults) (s : Store) (t : Table) (hf : f.countRows = false)
    (hn : s.rowCount t < 2 ^ 32) : CountRows f s t = some (s.rowCount t) := by
  unfold CountRows
  rw [hf, scanUint32_ok _ hn]
  rfl

theorem CountRows_some_iff (f : Faults) (s : Store) (t : Table) (n : Nat) :
    CountRows f s t = some n ↔
      f.countRows = false ∧ s.rowCount t < 2 ^ 32 ∧ n = s.rowCount t := by
  constructor
  · intro h
    unfold CountRows at h
    cases hf : f.countRows with
    | true => rw [hf] at h; cases h
    | false =>
      rw [hf] at h
      by_cases hn : s.rowCount t < 2 ^ 32
      · rw [scanUint32_ok _ hn] at h
        injection h with h
        exact ⟨rfl, hn, h.symm⟩
      · rw [scanUint32_error _ hn] at h
        cases h
  · rintro ⟨hf, hn, rfl⟩
    exact CountRows_eq_some f s t hf hn

/-- The store `AddOperation` leaves when every statement succeeds. -/
theorem AddOperation_eq_of_insert (f : Faults) (now : Int) (s : Store) (place : Str)
    (card amount cash b pid n : Nat)
    (hb : GetCardBalance f s card = .ok b) (hp : GetPlaceID f s place = .ok pid)
    (hc : CountOperations f s = some n) (hi : f.insertOperation = false) :
    AddOperation f now s place card amount cash =
      .returned ((amount / 100 * GetMLCDiscountPercent b) % 2 ^ 32, none)
        (IncrementCardCount f
          (AddCardBalance f
            (AddPlaceCash f
              { s with operations := s.operations ++
                  [⟨n, card, pid, amount, (amount / 100 * GetMLCDiscountPercent b) % 2 ^ 32,
                    cash, now⟩] }
              pid ((amount / 100 * GetMLCDiscountPercent b) % 2 ^ 32)).2
            card amount).2
          card).2 := by
  unfold AddOperation InsertOperation
  rw [hb]
  simp only []
  rw [hp]
  simp only []
  rw [hc]
  simp only [hi, Bool.false_eq_true, if_false]

theorem AddOperation_eq_of_insert_error (f : Faults) (now : Int) (s : Store) (place : Str)
    (card amount cash b pid n : Nat)
    (hb : GetCardBalance f s card = .ok b) (hp : GetPlaceID f s place = .ok pid)
    (hc : CountOperations f s = some n) (hi : f.insertOperation = true) :
    AddOperation f now s place card amount cash =
      .returned ((amount / 100 * GetMLCDiscountPercent b) % 2 ^ 32, some .driverError) s := by
  unfold AddOperation InsertOperation
  rw [hb]
  simp only []
  rw [hp]
  simp only []
  rw [hc]
  simp only [hi, if_true]

theorem AddOperation_eq_of_count_panic (f : Faults) (now : Int) (s : Store) (place : Str)
    (card amount cash b pid : Nat)
    (hb : GetCardBalance f s card = .ok b) (hp : GetPlaceID f s place = .ok pid)
    (hc : CountOperations f s = none) :
    AddOperation f now s place card amount cash = .panicked s := by
  unfold AddOperation InsertOperation
  rw [hb]
  simp only []
  rw [hp]
  simp only []
  rw [hc]

theorem AddPlaceCash_operations (f : Faults) (s : Store) (i d : Nat) :
    (AddPlaceCash f s i d).2.operations = s.operations := by
  unfold AddPlaceCash
  split_ifs <;> rfl

theorem AddCardBalance_operations (f : Faults) (s : Store) (i d : Nat) :
    (AddCardBalance f s i d).2.operations = s.operations := by
  unfold AddCardBalance
  split_ifs <;> rfl

theorem IncrementCardCount_operations (f : Faults) (s : Store) (i : Nat) :
    (IncrementCardCount f s i).2.operations = s.operations := by
  unfold IncrementCardCount
  split_ifs <;> rfl

theorem GetCardBalance_fault_false (f : Faults) (s : Store) (card b : Nat)
    (hb : GetCardBalance f s card = .ok b) : f.getCardBalance = false := by
  cases h : f.getCardBalance with
  | false => rfl
  | true =>
    unfold GetCardBalance at hb
    rw [h] at hb
    cases hb

theorem GetCardBalance_find (f : Faults) (s : Store) (card b : Nat)
    (hb : GetCardBalance f s card = .ok b) :
    ∃ c, s.cards.find? (fun c => c.id = card) = some c ∧ c.balance = b ∧ b < 2 ^ 32 := by
  have hf := GetCardBalance_fault_false f s card b hb
  unfold GetCardBalance at hb
  rw [hf] at hb
  cases hfind : s.cards.find? (fun c => c.id = card) with
  | none => rw [hfind] at hb; cases hb
  | some c =>
    rw [hfind] at hb
    refine ⟨c, rfl, ?_⟩
    by_cases hlt : c.balance < 2 ^ 32
    · rw [show (if false = true then (Except.error GoError.driverError : Except GoError Nat)
          else scanUint32 c.balance) = scanUint32 c.balance from rfl,
        scanUint32_ok _ hlt] at hb
      injection hb with hb
      exact ⟨hb, hb ▸ hlt⟩
    · rw [show (if false = true then (Except.error GoError.driverError : Except GoError Nat)
          else scanUint32 c.balance) = scanUint32 c.balance from rfl,
        scanUint32_error _ hlt] at hb
      cases hb

theorem find?_map_preserving {α : Type} (p : α → Bool) (g : α → α) (hg : ∀ a, p (g a) = p a)
    (l : List α) : (l.map g).find? p = (l.find? p).map g := by
  induction l with
  | nil => rfl
  | cons a l ih =>
    simp only [List.map_cons, List.find?_cons, hg]
    cases p a with
    | true => rfl
    | false => exact ih

/-- Re-reading the balance from a cards table whose rows with id `card` were
all raised by `amount` (and whose counts were raised by one). -/
theorem GetCardBalance_after (f : Faults) (s s' : Store) (card amount b : Nat)
    (hb : GetCardBalance f s card = .ok b)
    (hs : s'.cards = s.cards.map fun c =>
      if c.id = card then { c with balance := c.balance + amount, count := c.count + 1 } else c) :
    GetCardBalance f s' card = scanUint32 (b + amount) := by
  obtain ⟨c, hc, hcb, _⟩ := GetCardBalance_find f s card b hb
  have hf := GetCardBalance_fault_false f s card b hb
  have hid : c.id = card := by
    have := List.find?_some hc
    simpa using this
  unfold GetCardBalance
  rw [hf, hs, find?_map_preserving _ _ _ s.cards, hc]
  · simp only [Option.map_some', hid, if_true, hcb]
    rfl
  · intro a
    by_cases h : a.id = card
    · simp [h]
    · simp [h]

/-! ## Helper lemmas: count-based ids -/

theorem AddCard_cases (f : Faults) (s : Store) (name phone mail : Str) (balance : Nat)
    (gender : Bool) :
    (AddCard f s name phone mail balance gender = .panicked s ∧
      ¬ (f.countRows = false ∧ s.cards.length < 2 ^ 32)) ∨
    (AddCard f s name phone mail balance gender
        = .returned (s.cards.length, some .driverError) s ∧ f.insertCard = true) ∨
    (AddCard f s name phone mail balance gender
        = .returned (s.cards.length, none)
            { s with cards := s.cards ++ [⟨s.cards.length, name, phone, mail, balance, 0, gender⟩] } ∧
      f.countRows = false ∧ s.cards.length < 2 ^ 32 ∧ f.insertCard = false) := by
  unfold AddCard CountCards
  cases hc : CountRows f s .cards with
  | none =>
    left
    refine ⟨rfl, fun h => ?_⟩
    rw [CountRows_eq_some f s .cards h.1 h.2] at hc
    cases hc
  | some n =>
    obtain ⟨h1, h2, rfl⟩ := (CountRows_some_iff f s .cards n).1 hc
    right
    cases hi : f.insertCard with
    | true => left; exact ⟨rfl, rfl⟩
    | false => right; exact ⟨rfl, h1, h2, rfl⟩

theorem InsertOperation_cases (f : Faults) (now : Int) (s : Store)
    (card_id place_id amount discount cash_plus : Nat) :
    (InsertOperation f now s card_id place_id amount discount cash_plus = .panicked s ∧
      ¬ (f.countRows = false ∧ s.operations.length < 2 ^ 32)) ∨
    (InsertOperation f now s card_id place_id amount discount cash_plus
        = .returned (some .driverError) s ∧ f.insertOperation = true) ∨
    (InsertOperation f now s card_id place_id amount discount cash_plus
        = .returned none { s with operations := s.operations ++
            [⟨s.operations.length, card_id, place_id, amount, discount, cash_plus, now⟩] } ∧
      f.countRows = false ∧ s.operations.length < 2 ^ 32 ∧ f.insertOperation = false) := by
  unfold InsertOperation CountOperations
  cases hc : CountRows f s .operations with
  | none =>
    left
    refine ⟨rfl, fun h => ?_⟩
    rw [CountRows_eq_some f s .operations h.1 h.2] at hc
    cases hc
  | some n =>
    obtain ⟨h1, h2, rfl⟩ := (CountRows_some_iff f s .operations n).1 hc
    right
    cases hi : f.insertOperation with
    | true => left; exact ⟨rfl, rfl⟩
    | false => right; exact ⟨rfl, h1, h2, rfl⟩

theorem AddPlace_cases (cr : Crypto) (f : Faults) (s : Store) (place password : Str) :
    (AddPlace cr f s place password = .panicked s ∧
      ¬ (f.countRows = false ∧ s.places.length < 2 ^ 32)) ∨
    (∃ e, AddPlace cr f s place password = .returned (some e) s ∧
      ((∃ e', CryptNewPassword cr password = .error e') ∨ f.insertPlace = true)) ∨
    (∃ hash salt, CryptNewPassword cr password = .ok (hash, salt) ∧
      AddPlace cr f s place password
        = .returned none { s with places := s.places ++ [⟨s.places.length, place, hash, salt, 0⟩] } ∧
      f.countRows = false ∧ s.places.length < 2 ^ 32 ∧ f.insertPlace = false) := by
  unfold AddPlace CountPlaces
  cases hp : CryptNewPassword cr password with
  | error e => right; left; exact ⟨e, rfl, Or.inl ⟨e, rfl⟩⟩
  | ok hs =>
    obtain ⟨hash, salt⟩ := hs
    cases hc : CountRows f s .places with
    | none =>
      left
      refine ⟨rfl, fun h => ?_⟩
      rw [CountRows_eq_some f s .places h.1 h.2] at hc
      cases hc
    | some n =>
      obtain ⟨h1, h2, rfl⟩ := (CountRows_some_iff f s .places n).1 hc
      right
      cases hi : f.insertPlace with
      | true =>
        left
        refine ⟨.driverError, ?_, Or.inr rfl⟩
        simp only [InsertPlace, hi, if_true]
      | false =>
        right
        refine ⟨hash, salt, rfl, ?_, h1, h2, rfl⟩
        simp only [InsertPlace, hi, Bool.false_eq_true, if_false]
        rfl

theorem AddCardSeq_ids (calls : List CardCall) : ∀ (s : Store) (k : Nat), s.cards.length = k →
    returnedIds (AddCardSeq s calls).1
        = List.range' k (returnedIds (AddCardSeq s calls).1).length ∧
    (AddCardSeq s calls).2.cards.map (fun c => c.id)
        = s.cards.map (fun c => c.id) ++ returnedIds (AddCardSeq s calls).1 ∧
    ((∀ c ∈ calls, c.faults.countRows = false ∧ c.faults.insertCard = false) →
      k + calls.length ≤ 2 ^ 32 →
      (AddCardSeq s calls).1 = (List.range' k calls.length).map fun i => some (i, none)) := by
  induction calls with
  | nil =>
    intro s k _
    simp [AddCardSeq, returnedIds]
  | cons c cs ih =>
    intro s k hk
    rcases AddCard_cases c.faults s c.name c.phone c.mail c.balance c.gender with
      ⟨h, hno⟩ | ⟨h, hi⟩ | ⟨h, h1, h2, h3⟩
    · obtain ⟨i1, i2, _⟩ := ih s k hk
      simp only [AddCardSeq, h, Exec.result, Exec.store, returnedIds]
      refine ⟨i1, i2, fun hall hlen => absurd ⟨(hall c (List.mem_cons_self _ _)).1, ?_⟩ hno⟩
      simp only [List.length_cons] at hlen
      omega
    · obtain ⟨i1, i2, _⟩ := ih s k hk
      simp only [AddCardSeq, h, Exec.result, Exec.store, returnedIds]
      refine ⟨i1, i2, fun hall _ => ?_⟩
      have := (hall c (List.mem_cons_self _ _)).2
      rw [hi] at this
      cases this
    · obtain ⟨i1, i2, i3⟩ := ih
        { s with cards := s.cards ++ [⟨s.cards.length, c.name, c.phone, c.mail, c.balance, 0, c.gender⟩] }
        (k + 1) (by simp [hk])
      simp only [AddCardSeq, h, Exec.result, Exec.store, returnedIds]
      refine ⟨?_, ?_, fun hall hlen => ?_⟩
      · rw [List.length_cons, List.range'_succ, ← i1, hk]
      · rw [i2]
        simp
      · simp only [List.length_cons] at hlen
        rw [i3 (fun c' hc' => hall c' (List.mem_cons_of_mem _ hc')) (by omega)]
        simp [List.range'_succ, hk]

theorem InsertOperationSeq_ids (calls : List OperationCall) :
    ∀ (s : Store) (k : Nat), s.operations.length = k →
    (InsertOperationSeq s calls).2.operations.map (fun o => o.id)
        = s.operations.map (fun o => o.id)
            ++ List.range' k (successes (InsertOperationSeq s calls).1) ∧
    ((∀ c ∈ calls, c.faults.countRows = false ∧ c.faults.insertOperation = false) →
      k + calls.length ≤ 2 ^ 32 →
      (InsertOperationSeq s calls).1 = List.replicate calls.length (some none)) := by
  induction calls with
  | nil =>
    intro s k _
    simp [InsertOperationSeq, successes]
  | cons c cs ih =>
    intro s k hk
    rcases InsertOperation_cases c.faults c.now s c.card_id c.place_id c.amount c.discount
        c.cash_plus with ⟨h, hno⟩ | ⟨h, hi⟩ | ⟨h, h1, h2, h3⟩
    · obtain ⟨i1, _⟩ := ih s k hk
      simp only [InsertOperationSeq, h, Exec.result, Exec.store, successes]
      refine ⟨i1, fun hall hlen => absurd ⟨(hall c (List.mem_cons_self _ _)).1, ?_⟩ hno⟩
      simp only [List.length_cons] at hlen
      omega
    · obtain ⟨i1, _⟩ := ih s k hk
      simp only [InsertOperationSeq, h, Exec.result, Exec.store, successes]
      refine ⟨i1, fun hall _ => ?_⟩
      have := (hall c (List.mem_cons_self _ _)).2
      rw [hi] at this
      cases this
    · obtain ⟨i1, i2⟩ := ih
        { s with operations := s.operations ++
            [⟨s.operations.length, c.card_id, c.place_id, c.amount, c.discount, c.cash_plus,
              c.now⟩] }
        (k + 1) (by simp [hk])
      simp only [InsertOperationSeq, h, Exec.result, Exec.store, successes]
      refine ⟨?_, fun hall hlen => ?_⟩
      · rw [i1, List.range'_succ]
        simp [hk]
      · simp only [List.length_cons] at hlen
        rw [i2 (fun c' hc' => hall c' (List.mem_cons_of_mem _ hc')) (by omega)]
        simp [List.replicate_succ]

theorem AddPlaceSeq_ids (calls : List PlaceCall) :
    ∀ (s : Store) (k : Nat), s.places.length = k →
    (AddPlaceSeq s calls).2.places.map (fun p => p.id)
        = s.places.map (fun p => p.id) ++ List.range' k (successes (AddPlaceSeq s calls).1) ∧
    ((∀ c ∈ calls, c.faults.countRows = false ∧ c.faults.insertPlace = false ∧
        ∃ h, CryptNewPassword c.crypto c.password = .ok h) →
      k + calls.length ≤ 2 ^ 32 →
      (AddPlaceSeq s calls).1 = List.replicate calls.length (some none)) := by
  induction calls with
  | nil =>
    intro s k _
    simp [AddPlaceSeq, successes]
  | cons c cs ih =>
    intro s k hk
    rcases AddPlace_cases c.crypto c.faults s c.place c.password with
      ⟨h, hno⟩ | ⟨e, h, hi⟩ | ⟨hash, salt, _, h, h1, h2, h3⟩
    · obtain ⟨i1, _⟩ := ih s k hk
      simp only [AddPlaceSeq, h, Exec.result, Exec.store, successes]
      refine ⟨i1, fun hall hlen => absurd ⟨(hall c (List.mem_cons_self _ _)).1, ?_⟩ hno⟩
      simp only [List.length_cons] at hlen
      omega
    · obtain ⟨i1, _⟩ := ih s k hk
      simp only [AddPlaceSeq, h, Exec.result, Exec.store, successes]
      refine ⟨i1, fun hall _ => ?_⟩
      obtain ⟨_, hins, hh, hok⟩ := hall c (List.mem_cons_self _ _)
      rcases hi with ⟨e', he'⟩ | hi
      · rw [he'] at hok
        cases hok
      · rw [hi] at hins
        cases hins
    · obtain ⟨i1, i2⟩ := ih
        { s with places := s.places ++ [⟨s.places.length, c.place, hash, salt, 0⟩] }
        (k + 1) (by simp [hk])
      simp only [AddPlaceSeq, h, Exec.result, Exec.store, successes]
      refine ⟨?_, fun hall hlen => ?_⟩
      · rw [i1, List.range'_succ]
        simp [hk]
      · simp only [List.length_cons] at hlen
        rw [i2 (fun c' hc' => hall c' (List.mem_cons_of_mem _ hc')) (by omega)]
        simp [List.replicate_succ]

theorem range_append_range' (k m : Nat) : List.range k ++ List.range' k m = List.range (k + m) := by
  rw [List.range_eq_range', List.range_eq_range', Nat.add_comm k m]
  simpa using List.range'_append_1 0 k m

theorem not_mem_of_perm_range (ids : List Nat) (k i : Nat) (h : ids.Perm (List.range k))
    (hi : k ≤ i) : i ∉ ids := by
  intro hmem
  have := (h.mem_iff).1 hmem
  rw [List.mem_range] at this
  omega

/-! ## Helper lemmas: the calendar of package `time` -/

theorem isLeap_iff (year : Int) :
    isLeap year = true ↔ year % 4 = 0 ∧ (year % 100 ≠ 0 ∨ year % 400 = 0) := by
  simp [isLeap]

theorem daysSinceEpoch_parts (n400 n100 n4 n : Int) (h100 : 0 ≤ n100 ∧ n100 ≤ 3)
    (h4 : 0 ≤ n4 ∧ n4 ≤ 24) (h1 : 0 ≤ n ∧ n ≤ 3) :
    daysSinceEpoch (400 * n400 + 100 * n100 + 4 * n4 + n + 1)
      = 146097 * n400 + 36524 * n100 + 1461 * n4 + 365 * n := by
  unfold daysSinceEpoch
  have e1 : (400 * n400 + 100 * n100 + 4 * n4 + n + 1 - 1) / 400 = n400 := by omega
  simp only [e1]
  have e2 : (400 * n400 + 100 * n100 + 4 * n4 + n + 1 - 1 - 400 * n400) / 100 = n100 := by omega
  simp only [e2]
  have e3 : (400 * n400 + 100 * n100 + 4 * n4 + n + 1 - 1 - 400 * n400 - 100 * n100) / 4 = n4 := by
    omega
  simp only [e3]
  omega

theorem yearDay_parts (d : Int) (hd0 : 0 ≤ d) (hd1 : d < 146097) :
    ∃ n100 n4 n yday : Int,
      n100 = d / 36524 - d / 36524 / 4 ∧
      n4 = (d - 36524 * n100) / 1461 ∧
      n = (d - 36524 * n100 - 1461 * n4) / 365 - (d - 36524 * n100 - 1461 * n4) / 365 / 4 ∧
      yday = d - 36524 * n100 - 1461 * n4 - 365 * n ∧
      (0 ≤ n100 ∧ n100 ≤ 3) ∧ (0 ≤ n4 ∧ n4 ≤ 24) ∧ (0 ≤ n ∧ n ≤ 3) ∧
      0 ≤ yday ∧ yday ≤ 365 ∧ (yday = 365 → n = 3 ∧ (n4 < 24 ∨ n100 = 3)) := by
  have hg : 0 ≤ d / 36524 ∧ d / 36524 ≤ 4 := by omega
  obtain ⟨n100, hn100⟩ : ∃ n100, n100 = d / 36524 - d / 36524 / 4 := ⟨_, rfl⟩
  have hn100b : 0 ≤ n100 ∧ n100 ≤ 3 := by omega
  have hd1b : 0 ≤ d - 36524 * n100 ∧ d - 36524 * n100 ≤ 36524 ∧
      (n100 < 3 → d - 36524 * n100 < 36524) := by omega
  obtain ⟨n4, hn4⟩ : ∃ n4, n4 = (d - 36524 * n100) / 1461 := ⟨_, rfl⟩
  have hn4b : 0 ≤ n4 ∧ n4 ≤ 24 := by omega
  have hd2b : 0 ≤ d - 36524 * n100 - 1461 * n4 ∧ d - 36524 * n100 - 1461 * n4 ≤ 1460 ∧
      (n4 = 24 → n100 < 3 → d - 36524 * n100 - 1461 * n4 < 1460) := by omega
  have hk : 0 ≤ (d - 36524 * n100 - 1461 * n4) / 365 ∧
      (d - 36524 * n100 - 1461 * n4) / 365 ≤ 4 := by omega
  obtain ⟨n, hn⟩ : ∃ n, n = (d - 36524 * n100 - 1461 * n4) / 365
      - (d - 36524 * n100 - 1461 * n4) / 365 / 4 := ⟨_, rfl⟩
  have hnb : 0 ≤ n ∧ n ≤ 3 := by omega
  refine ⟨n100, n4, n, d - 36524 * n100 - 1461 * n4 - 365 * n, hn100, hn4, hn, rfl,
    hn100b, hn4b, hnb, ?_, ?_, ?_⟩
  · omega
  · omega
  · omega

theorem absYearDay_spec (days : Int) :
    daysSinceEpoch (absYearDay days).1 + (absYearDay days).2 = days ∧
    0 ≤ (absYearDay days).2 ∧
    ((absYearDay days).2 < 365 ∨
      ((absYearDay days).2 = 365 ∧ isLeap (absYearDay days).1 = true)) := by
  have hd0 : 0 ≤ days % 146097 := by omega
  have hd1 : days % 146097 < 146097 := by omega
  obtain ⟨n100, n4, n, yday, e100, e4, e1, ey, b100, b4, b1, y0, y1, y2⟩ :=
    yearDay_parts (days % 146097) hd0 hd1
  have hres : absYearDay days = (400 * (days / 146097) + 100 * n100 + 4 * n4 + n + 1, yday) := by
    unfold absYearDay
    simp only [← e100, ← e4, ← e1, ← ey]
  rw [hres]
  simp only []
  rw [daysSinceEpoch_parts _ _ _ _ b100 b4 b1]
  refine ⟨by omega, y0, ?_⟩
  by_cases h : yday = 365
  · right
    obtain ⟨hn3, hc⟩ := y2 h
    refine ⟨h, (isLeap_iff _).2 ?_⟩
    omega
  · left
    omega

theorem monthEstimate_spec (day : Int) (h0 : 0 ≤ day) (h1 : day < 365) :
    1 ≤ (monthEstimate day).1 ∧ (monthEstimate day).1 ≤ 12 ∧ 1 ≤ (monthEstimate day).2 ∧
    (monthEstimate day).2 ≤
      daysBefore (monthEstimate day).1.toNat - daysBefore ((monthEstimate day).1 - 1).toNat ∧
    daysBefore ((monthEstimate day).1 - 1).toNat + ((monthEstimate day).2 - 1) = day ∧
    (day < 59 → (monthEstimate day).1 ≤ 2) ∧ (59 ≤ day → 3 ≤ (monthEstimate day).1) := by
  obtain ⟨k, hk⟩ : ∃ k : Nat, (k : Int) = day / 31 := ⟨(day / 31).toNat, by omega⟩
  have hk12 : k < 12 := by omega
  have h31 : 31 * (k : Int) ≤ day ∧ day < 31 * (k : Int) + 31 := by omega
  unfold monthEstimate
  rw [← hk]
  interval_cases k <;> simp [daysBefore] <;> split_ifs <;> simp [daysBefore] <;> omega

theorem absMonthDay_spec (leap : Bool) (yday : Int) (h0 : 0 ≤ yday)
    (h1 : yday < 365 ∨ (yday = 365 ∧ leap = true)) :
    1 ≤ (absMonthDay leap yday).1 ∧ (absMonthDay leap yday).1 ≤ 12 ∧
    1 ≤ (absMonthDay leap yday).2 ∧
    (absMonthDay leap yday).2 ≤
      (if (absMonthDay leap yday).1 = 2 ∧ leap = true then 29
        else daysBefore (absMonthDay leap yday).1.toNat
          - daysBefore ((absMonthDay leap yday).1 - 1).toNat) ∧
    daysBefore ((absMonthDay leap yday).1 - 1).toNat
      + (if leap = true ∧ (absMonthDay leap yday).1 ≥ 3 then 1 else 0)
      + ((absMonthDay leap yday).2 - 1) = yday := by
  unfold absMonthDay
  cases leap with
  | true =>
    by_cases h59 : yday = 31 + 29 - 1
    · simp [h59, daysBefore]
    · by_cases hgt : yday > 31 + 29 - 1
      · obtain ⟨b1, b2, b3, b4, b5, b6, b7⟩ := monthEstimate_spec (yday - 1)
          (by omega) (by omega)
        simp only [h59, hgt, and_false, and_self, true_and, and_true, if_true, if_false]
        generalize monthEstimate (yday - 1) = r at *
        have hm3 : 3 ≤ r.1 := b7 (by omega)
        have hm2 : ¬ r.1 = 2 := by omega
        simp only [hm2, if_false, ge_iff_le, hm3, if_true, and_true]
        refine ⟨b1, b2, b3, b4, by omega⟩
      · obtain ⟨b1, b2, b3, b4, b5, b6, b7⟩ := monthEstimate_spec yday
          (by omega) (by omega)
        simp only [h59, hgt, and_false, and_self, true_and, and_true, if_true, if_false]
        generalize monthEstimate yday = r at *
        have hm2 : r.1 ≤ 2 := b6 (by omega)
        have hm3 : ¬ 3 ≤ r.1 := by omega
        simp only [ge_iff_le, hm3, if_false, and_true]
        refine ⟨b1, b2, b3, ?_, by omega⟩
        split_ifs with h2
        · rw [h2] at b4
          simp [daysBefore] at b4
          omega
        · exact b4
  | false =>
    have hlt : yday < 365 := by
      rcases h1 with h | ⟨_, h⟩
      · exact h
      · cases h
    obtain ⟨b1, b2, b3, b4, b5, b6, b7⟩ := monthEstimate_spec yday h0 hlt
    simp only [Bool.false_eq_true, false_and, and_false, if_false]
    generalize monthEstimate yday = r at *
    refine ⟨b1, b2, b3, b4, by omega⟩

theorem absDate_spec (days : Int) :
    1 ≤ (absDate days).2.1 ∧ (absDate days).2.1 ≤ 12 ∧
    1 ≤ (absDate days).2.2 ∧
    (absDate days).2.2 ≤ daysIn (absDate days).2.1 (absDate days).1 ∧
    daysSinceEpoch (absDate days).1 + daysBefore ((absDate days).2.1 - 1).toNat
      + (if isLeap (absDate days).1 = true ∧ (absDate days).2.1 ≥ 3 then 1 else 0)
      + ((absDate days).2.2 - 1) = days := by
  obtain ⟨y1, y2, y3⟩ := absYearDay_spec days
  obtain ⟨m1, m2, m3, m4, m5⟩ :=
    absMonthDay_spec (isLeap (absYearDay days).1) (absYearDay days).2 y2 y3
  unfold absDate daysIn
  simp only []
  exact ⟨m1, m2, m3, m4, by omega⟩

theorem Date_of_normal (year month day hour min sec nsec : Int)
    (hm : 1 ≤ month ∧ month ≤ 12) (hh : 0 ≤ hour ∧ hour < 24) (hmin : 0 ≤ min ∧ min < 60)
    (hsec : 0 ≤ sec ∧ sec < 60) (hns : 0 ≤ nsec ∧ nsec < 1000000000) :
    Date year month day hour min sec nsec
      = ((daysSinceEpoch year + daysBefore (month - 1).toNat
            + (if isLeap year = true ∧ month ≥ 3 then 1 else 0) + (day - 1)) * 86400
          + hour * 3600 + min * 60 + sec) * 1000000000 + nsec := by
  have e1 : (month - 1) / 12 = 0 := by omega
  have e2 : (month - 1) % 12 = month - 1 := by omega
  have e3 : nsec / 1000000000 = 0 := by omega
  have e4 : nsec % 1000000000 = nsec := by omega
  have e5 : sec / 60 = 0 := by omega
  have e6 : sec % 60 = sec := by omega
  have e7 : min / 60 = 0 := by omega
  have e8 : min % 60 = min := by omega
  have e9 : hour / 24 = 0 := by omega
  have e10 : hour % 24 = hour := by omega
  unfold Date norm
  simp only [e1, e2, e3, e4, add_zero, e5, e6, e7, e8, e9, e10, sub_add_cancel]

theorem AddDate_days (t k : Int) : AddDate t 0 0 k = t + k * 86400000000000 := by
  obtain ⟨m1, m2, _, _, m5⟩ := absDate_spec (t / 1000000000 / 86400)
  unfold AddDate
  simp only [add_zero]
  rw [Date_of_normal _ _ _ _ _ _ _ ⟨m1, m2⟩ (by omega) (by omega) (by omega) (by omega)]
  omega

/-! ## Helper lemmas: formatting and parsing `http.TimeFormat` -/

theorem digitChar_toNat (n : Nat) : (digitChar n).toNat = 48 + n % 10 := by
  have h : n % 10 < 10 := Nat.mod_lt _ (by decide)
  unfold digitChar
  generalize n % 10 = k at h
  interval_cases k <;> rfl

theorem isDigit_cons_zero (c : Char) (rest : Str) :
    isDigit (c :: rest) 0 = decide (48 ≤ c.toNat ∧ c.toNat ≤ 57) := rfl

theorem isDigit_cons_succ (c : Char) (rest : Str) (i : Nat) :
    isDigit (c :: rest) (i + 1) = isDigit rest i := rfl

theorem isDigit_digitChar (n : Nat) (rest : Str) : isDigit (digitChar n :: rest) 0 = true := by
  rw [isDigit_cons_zero, digitChar_toNat]
  simp only [decide_eq_true_eq]
  omega

theorem digitVal_digitChar (n : Nat) : digitVal (digitChar n) = ((n % 10 : Nat) : Int) := by
  unfold digitVal
  rw [digitChar_toNat]
  congr 1
  omega

theorem digitChar_ne (n : Nat) (c : Char) (hc : c.toNat < 48 ∨ 57 < c.toNat) :
    digitChar n ≠ c := by
  intro h
  have := digitChar_toNat n
  rw [h] at this
  omega

theorem getnum_digits (a b : Nat) (rest : Str) (fixed : Bool) :
    getnum (digitChar a :: digitChar b :: rest) fixed
      = some ((((a % 10 : Nat) : Int)) * 10 + ((b % 10 : Nat) : Int), rest) := by
  unfold getnum
  rw [isDigit_digitChar, isDigit_cons_succ, isDigit_digitChar]
  simp only [Bool.not_true, Bool.false_eq_true, if_false, digitVal_digitChar]

theorem lastDigits_two (u : Nat) : lastDigits u 2 = [digitChar (u / 10), digitChar u] := by
  simp [lastDigits]

theorem lastDigits_four (u : Nat) :
    lastDigits u 4
      = [digitChar (u / 10 / 10 / 10), digitChar (u / 10 / 10), digitChar (u / 10), digitChar u] := by
  simp [lastDigits]

theorem appendInt_two (x : Int) (h0 : 0 ≤ x) (h1 : x < 100) :
    appendInt x 2 = [digitChar (x.toNat / 10), digitChar x.toNat] := by
  unfold appendInt
  have hn : x.natAbs = x.toNat := by omega
  rw [if_neg (by omega), if_pos (by omega), hn, lastDigits_two]
  rfl

theorem appendInt_four (x : Int) (h0 : 0 ≤ x) (h1 : x < 10000) :
    appendInt x 4 = [digitChar (x.toNat / 10 / 10 / 10), digitChar (x.toNat / 10 / 10),
      digitChar (x.toNat / 10), digitChar x.toNat] := by
  unfold appendInt
  have hn : x.natAbs = x.toNat := by omega
  rw [if_neg (by omega), if_pos (by omega), hn, lastDigits_four]
  rfl

theorem getyear_digits (a b c d : Nat) (rest : Str) :
    getyear (digitChar a :: digitChar b :: digitChar c :: digitChar d :: rest)
      = some (((((a % 10 : Nat) : Int) * 10 + ((b % 10 : Nat) : Int)) * 10
          + ((c % 10 : Nat) : Int)) * 10 + ((d % 10 : Nat) : Int), rest) := by
  unfold getyear
  have hd : ∀ n : Nat, decide (48 ≤ (digitChar n).toNat ∧ (digitChar n).toNat ≤ 57) = true := by
    intro n
    rw [digitChar_toNat]
    simp only [decide_eq_true_eq]
    omega
  simp [isDigit_digitChar, digitsVal, digitVal_digitChar, digitChar_toNat]
  omega

theorem lookupFrom_append (tab : List Str) (n rest : Str) (h : ∀ v ∈ tab, v.length ≤ n.length) :
    ∀ j : Nat, lookupFrom tab j (n ++ rest)
      = (lookupFrom tab j n).map fun r => (r.1, r.2 ++ rest) := by
  induction tab with
  | nil => intro j; rfl
  | cons v tab ih =>
    intro j
    have hv : v.length ≤ n.length := h v (List.mem_cons_self _ _)
    have ih' := ih (fun w hw => h w (List.mem_cons_of_mem _ hw)) (j + 1)
    unfold lookupFrom
    rw [List.take_append_of_le_length hv, List.drop_append_of_le_length hv, ih']
    have hl : (n ++ rest).length ≥ v.length := by
      rw [List.length_append]
      omega
    by_cases hm : matchFold (List.take v.length n) v = true
    · rw [if_pos ⟨hl, hm⟩, if_pos ⟨hv, hm⟩]
      rfl
    · rw [if_neg (fun h => hm h.2), if_neg (fun h => hm h.2)]

theorem lookup_shortDayNames (k : Nat) (hk : k < 7) (rest : Str) :
    lookup shortDayNames (shortDayNames.getD k [] ++ rest) = some (k, rest) := by
  have h1 : ∀ i, i < 7 → lookupFrom shortDayNames 0 (shortDayNames.getD i []) = some (i, []) := by
    decide
  have h2 : ∀ i, i < 7 → ∀ v ∈ shortDayNames, v.length ≤ (shortDayNames.getD i []).length := by
    decide
  unfold lookup
  rw [lookupFrom_append _ _ _ (h2 k hk), h1 k hk]
  rfl

theorem lookup_shortMonthNames (k : Nat) (hk : k < 12) (rest : Str) :
    lookup shortMonthNames (shortMonthNames.getD k [] ++ rest) = some (k, rest) := by
  have h1 : ∀ i, i < 12 →
      lookupFrom shortMonthNames 0 (shortMonthNames.getD i []) = some (i, []) := by
    decide
  have h2 : ∀ i, i < 12 →
      ∀ v ∈ shortMonthNames, v.length ≤ (shortMonthNames.getD i []).length := by
    decide
  unfold lookup
  rw [lookupFrom_append _ _ _ (h2 k hk), h1 k hk]
  rfl

theorem cutspace_eq (v : Str) (h : v.head? ≠ some ' ') : cutspace v = v := by
  cases v with
  | nil => rfl
  | cons c v =>
    have hc : c ≠ ' ' := fun e => h (by rw [e]; rfl)
    simp [cutspace, List.dropWhile, hc]

theorem skip_space (v : Str) (h : v.head? ≠ some ' ') : skip (' ' :: v) [' '] = some v := by
  have hc : cutspace (' ' :: v) = v := by
    have : cutspace (' ' :: v) = cutspace v := by simp [cutspace, List.dropWhile]
    rw [this, cutspace_eq v h]
  show skipFrom [' '] (' ' :: v) false = some v
  simp [skipFrom, hc]

theorem skip_comma_space (v : Str) (h : v.head? ≠ some ' ') :
    skip (',' :: ' ' :: v) [',', ' '] = some v := by
  have hc : cutspace (' ' :: v) = v := by
    have : cutspace (' ' :: v) = cutspace v := by simp [cutspace, List.dropWhile]
    rw [this, cutspace_eq v h]
  show skipFrom [',', ' '] (',' :: ' ' :: v) false = some v
  simp [skipFrom, hc]

theorem skip_colon (v : Str) : skip (':' :: v) [':'] = some v := by
  show skipFrom [':'] (':' :: v) false = some v
  simp [skipFrom]

theorem head?_digitChar_ne_space (n : Nat) (rest : Str) :
    (digitChar n :: rest).head? ≠ some ' ' := by
  intro h
  injection h with h
  exact digitChar_ne n ' ' (Or.inl (by decide)) h

theorem head?_shortMonthNames (k : Nat) (hk : k < 12) (rest : Str) :
    (shortMonthNames.getD k [] ++ rest).head? ≠ some ' ' := by
  have h1 : ∀ i, i < 12 → (shortMonthNames.getD i []).head? ≠ some ' ' ∧
      shortMonthNames.getD i [] ≠ [] := by decide
  obtain ⟨a, b⟩ := h1 k hk
  cases hn : shortMonthNames.getD k [] with
  | nil => exact absurd hn b
  | cons c cs =>
    rw [hn] at a
    exact a

theorem parseHTTPDate_format (wd mon : Nat) (hwd : wd < 7) (hmon : mon < 12) (day year : Int)
    (hday : 0 ≤ day ∧ day < 100) (hyear : 0 ≤ year ∧ year < 10000) (rest : Str) :
    parseHTTPDate (shortDayNames.getD wd [] ++ (", ".toList ++ (appendInt day 2 ++
      (" ".toList ++ (shortMonthNames.getD mon [] ++ (" ".toList ++
        (appendInt year 4 ++ rest)))))))
      = some (day, (mon : Int) + 1, year, rest) := by
  unfold parseHTTPDate
  rw [lookup_shortDayNames wd hwd, appendInt_two day hday.1 hday.2,
    appendInt_four year hyear.1 hyear.2]
  simp only [Option.bind_eq_bind, Option.some_bind]
  rw [show ", ".toList = [',', ' '] from rfl, show " ".toList = [' '] from rfl]
  simp only [List.cons_append, List.nil_append]
  rw [skip_comma_space _ (head?_digitChar_ne_space _ _)]
  simp only [Option.some_bind]
  rw [getnum_digits]
  simp only [Option.some_bind]
  rw [skip_space _ (head?_shortMonthNames mon hmon _)]
  simp only [Option.some_bind]
  rw [lookup_shortMonthNames mon hmon]
  simp only [Option.some_bind]
  rw [skip_space _ (head?_digitChar_ne_space _ _)]
  simp only [Option.some_bind]
  rw [getyear_digits]
  simp only [Option.some_bind]
  congr 2
  · omega
  · congr 2
    omega

theorem parseHTTPClock_format (hour min sec : Int) (hh : 0 ≤ hour ∧ hour < 24)
    (hm : 0 ≤ min ∧ min < 60) (hs : 0 ≤ sec ∧ sec < 60) (rest : Str)
    (hr : getfraction rest = (0, rest)) :
    parseHTTPClock (appendInt hour 2 ++ (":".toList ++ (appendInt min 2 ++ (":".toList ++
      (appendInt sec 2 ++ rest)))))
      = some (hour, min, sec, 0, rest) := by
  unfold parseHTTPClock
  rw [appendInt_two hour hh.1 (by omega), appendInt_two min hm.1 (by omega),
    appendInt_two sec hs.1 (by omega)]
  rw [show ":".toList = [':'] from rfl]
  simp only [List.cons_append, List.nil_append]
  rw [getnum_digits]
  simp only [Option.some_bind, Option.bind_eq_bind]
  have e1 : ((hour.toNat / 10 % 10 : Nat) : Int) * 10 + ((hour.toNat % 10 : Nat) : Int) = hour := by
    omega
  have e2 : ((min.toNat / 10 % 10 : Nat) : Int) * 10 + ((min.toNat % 10 : Nat) : Int) = min := by
    omega
  have e3 : ((sec.toNat / 10 % 10 : Nat) : Int) * 10 + ((sec.toNat % 10 : Nat) : Int) = sec := by
    omega
  rw [e1, if_neg (by omega), skip_colon]
  simp only [Option.some_bind]
  rw [getnum_digits]
  simp only [Option.some_bind]
  rw [e2, if_neg (by omega), skip_colon]
  simp only [Option.some_bind]
  rw [getnum_digits]
  simp only [Option.some_bind]
  rw [e3, if_neg (by omega), hr]

/-- The text `FormatHTTPTime` produces, with the appends nested to the right. -/
theorem FormatHTTPTime_eq (t offset : Int) :
    FormatHTTPTime t offset =
      shortDayNames.getD (((t / 1000000000 + offset) / 86400 + 1) % 7).toNat [] ++
        (", ".toList ++ (appendInt (absDate ((t / 1000000000 + offset) / 86400)).2.2 2 ++
          (" ".toList ++
            (shortMonthNames.getD ((absDate ((t / 1000000000 + offset) / 86400)).2.1 - 1).toNat []
              ++ (" ".toList ++ (appendInt (absDate ((t / 1000000000 + offset) / 86400)).1 4 ++
                (" ".toList ++ (appendInt ((t / 1000000000 + offset) % 86400 / 3600) 2 ++
                  (":".toList ++
                    (appendInt ((t / 1000000000 + offset) % 86400 % 3600 / 60) 2 ++
                      (":".toList ++ (appendInt ((t / 1000000000 + offset) % 86400 % 60) 2 ++
                        " GMT".toList)))))))))))) := by
  unfold FormatHTTPTime
  simp only [List.append_assoc]

/-- Parsing what `FormatHTTPTime` printed gives back the wall clock it printed,
read as UTC, when the year has four digits. -/
theorem ParseHTTPTime_FormatHTTPTime (t offset : Int)
    (hy : 0 ≤ (absDate ((t / 1000000000 + offset) / 86400)).1 ∧
      (absDate ((t / 1000000000 + offset) / 86400)).1 ≤ 9999) :
    ParseHTTPTime (FormatHTTPTime t offset) = .ok ((t / 1000000000 + offset) * 1000000000) := by
  obtain ⟨m1, m2, m3, m4, m5⟩ := absDate_spec ((t / 1000000000 + offset) / 86400)
  have hdin : daysIn (absDate ((t / 1000000000 + offset) / 86400)).2.1
      (absDate ((t / 1000000000 + offset) / 86400)).1 ≤ 31 := by
    unfold daysIn
    obtain ⟨k, hk⟩ : ∃ k : Nat, (k : Int) = (absDate ((t / 1000000000 + offset) / 86400)).2.1 :=
      ⟨_, Int.toNat_of_nonneg (by omega)⟩
    rw [← hk] at m1 m2 ⊢
    have hk1 : 1 ≤ k := by omega
    have hk2 : k ≤ 12 := by omega
    split_ifs
    · omega
    · interval_cases k <;> simp [daysBefore]
  rw [FormatHTTPTime_eq]
  unfold ParseHTTPTime
  rw [parseHTTPDate_format _ _ (by omega) (by omega) _ _ ⟨by omega, by omega⟩
    ⟨hy.1, by omega⟩]
  simp only [Option.some_bind, Option.bind_eq_bind]
  rw [show " ".toList = [' '] from rfl, List.cons_append, List.nil_append]
  rw [appendInt_two ((t / 1000000000 + offset) % 86400 / 3600) (by omega) (by omega)]
  rw [List.cons_append, skip_space _ (head?_digitChar_ne_space _ _)]
  simp only [Option.some_bind]
  rw [← List.cons_append, ← appendInt_two ((t / 1000000000 + offset) % 86400 / 3600)
    (by omega) (by omega)]
  rw [parseHTTPClock_format _ _ _ (by omega) (by omega) (by omega) _ (by decide)]
  simp only [Option.some_bind]
  rw [show skip " GMT".toList " GMT".toList = some [] from by decide]
  simp only [Option.some_bind, ne_eq, not_true_eq_false, if_false]
  have hmon : ((((absDate ((t / 1000000000 + offset) / 86400)).2.1 - 1).toNat : Nat) : Int) + 1
      = (absDate ((t / 1000000000 + offset) / 86400)).2.1 := by omega
  simp only [hmon]
  rw [if_neg (by omega)]
  simp only []
  rw [Date_of_normal _ _ _ _ _ _ _ ⟨by omega, by omega⟩ (by omega) (by omega) (by omega)
    (by omega)]
  congr 1
  omega
/-! ## Helper lemmas: `ParsePlaceAuth` -/

theorem ParsePlaceAuth_of_fields (now : Int) (val place ts csrf : Str)
    (hs : Split val ';' = [place, ts, csrf]) :
    ParsePlaceAuth now (.ok val) =
      match ParseHTTPTime ts with
      | .error e => (place, [], some e)
      | .ok t =>
        if now > t + 86400000000000 then (place, [], some .authTokenExpired)
        else (place, csrf, none) := by
  unfold ParsePlaceAuth
  simp only [hs, List.length_cons, List.length_nil, ne_eq, not_true_eq_false, if_false,
    List.getD_cons_zero, List.getD_cons_succ]
  cases ParseHTTPTime ts with
  | error e => rfl
  | ok t =>
    simp only [AddDate_days]
    rfl

/-! ## Helper lemmas: `strings.Split` and the session payload -/

theorem Split_cons (c : Char) (rest : Str) (sep : Char) :
    Split (c :: rest) sep =
      if c = sep then [] :: Split rest sep
      else
        match Split rest sep with
        | [] => [[c]]
        | field :: fields => (c :: field) :: fields := by
  rw [Split]

theorem Split_ne_nil (s : Str) (sep : Char) : Split s sep ≠ [] := by
  cases s with
  | nil => simp [Split]
  | cons c rest =>
    rw [Split_cons]
    split_ifs
    · simp
    · cases h : Split rest sep with
      | nil => simp
      | cons f fs => simp

theorem Split_of_not_mem (s : Str) (sep : Char) (h : sep ∉ s) : Split s sep = [s] := by
  induction s with
  | nil => rfl
  | cons c rest ih =>
    have hc : c ≠ sep := fun e => h (by rw [e]; exact List.mem_cons_self _ _)
    have hr : sep ∉ rest := fun m => h (List.mem_cons_of_mem _ m)
    rw [Split_cons, if_neg hc, ih hr]

theorem Split_append_sep (a b : Str) (sep : Char) (h : sep ∉ a) :
    Split (a ++ sep :: b) sep = a :: Split b sep := by
  induction a with
  | nil =>
    show Split (sep :: b) sep = _
    rw [Split_cons, if_pos rfl]
  | cons c rest ih =>
    have hc : c ≠ sep := fun e => h (by rw [e]; exact List.mem_cons_self _ _)
    have hr : sep ∉ rest := fun m => h (List.mem_cons_of_mem _ m)
    show Split (c :: (rest ++ sep :: b)) sep = _
    rw [Split_cons, if_neg hc, ih hr]

theorem Split_length (s : Str) (sep : Char) : (Split s sep).length = s.count sep + 1 := by
  induction s with
  | nil => rfl
  | cons c rest ih =>
    rw [Split_cons]
    by_cases hc : c = sep
    · rw [if_pos hc, List.length_cons, ih, hc, List.count_cons_self]
    · rw [if_neg hc]
      have hcount : (c :: rest).count sep = rest.count sep := by
        rw [List.count_cons_of_ne]
        exact fun e => hc e.symm
      rw [hcount, ← ih]
      cases h : Split rest sep with
      | nil => exact absurd h (Split_ne_nil rest sep)
      | cons f fs => rfl

theorem base64Char_ne_semicolon (v : Nat) : base64Char v ≠ ';' := by
  have h : ∀ i, i < 64 → base64Alphabet.getD i 'A' ≠ ';' := by decide
  exact h (v % 64) (Nat.mod_lt _ (by decide))

theorem base64Encode_no_semicolon : ∀ bytes : List Nat, ';' ∉ base64Encode bytes
  | [] => by simp [base64Encode]
  | [b0] => by
    simp only [base64Encode, List.mem_cons, List.mem_singleton, List.mem_nil_iff, not_or]
    exact ⟨(base64Char_ne_semicolon _).symm, (base64Char_ne_semicolon _).symm, by decide,
      by decide, not_false⟩
  | [b0, b1] => by
    simp only [base64Encode, List.mem_cons, List.mem_singleton, List.mem_nil_iff, not_or]
    exact ⟨(base64Char_ne_semicolon _).symm, (base64Char_ne_semicolon _).symm,
      (base64Char_ne_semicolon _).symm, by decide, not_false⟩
  | b0 :: b1 :: b2 :: rest => by
    have ih := base64Encode_no_semicolon rest
    simp only [base64Encode, List.mem_cons, not_or]
    exact ⟨(base64Char_ne_semicolon _).symm, (base64Char_ne_semicolon _).symm,
      (base64Char_ne_semicolon _).symm, (base64Char_ne_semicolon _).symm, ih⟩

theorem FormatHTTPTime_no_semicolon (t offset : Int)
    (hy : 0 ≤ (absDate ((t / 1000000000 + offset) / 86400)).1 ∧
      (absDate ((t / 1000000000 + offset) / 86400)).1 ≤ 9999) :
    ';' ∉ FormatHTTPTime t offset := by
  obtain ⟨m1, m2, m3, m4, m5⟩ := absDate_spec ((t / 1000000000 + offset) / 86400)
  have hdin : daysIn (absDate ((t / 1000000000 + offset) / 86400)).2.1
      (absDate ((t / 1000000000 + offset) / 86400)).1 ≤ 31 := by
    unfold daysIn
    obtain ⟨k, hk⟩ : ∃ k : Nat, (k : Int) = (absDate ((t / 1000000000 + offset) / 86400)).2.1 :=
      ⟨_, Int.toNat_of_nonneg (by omega)⟩
    rw [← hk] at m1 m2 ⊢
    have hk1 : 1 ≤ k := by omega
    have hk2 : k ≤ 12 := by omega
    split_ifs
    · omega
    · interval_cases k <;> simp [daysBefore]
  have hwd : ∀ i, i < 7 → ';' ∉ shortDayNames.getD i [] := by decide
  have hmo : ∀ i, i < 12 → ';' ∉ shortMonthNames.getD i [] := by decide
  have hdc : ∀ n : Nat, ¬ ';' = digitChar n := fun n e =>
    digitChar_ne n ';' (Or.inr (by decide)) e.symm
  rw [FormatHTTPTime_eq, appendInt_two _ (by omega) (by omega),
    appendInt_four _ hy.1 (by omega), appendInt_two _ (by omega) (by omega),
    appendInt_two _ (by omega) (by omega), appendInt_two _ (by omega) (by omega)]
  simp only [List.mem_append, List.mem_cons, List.mem_nil_iff, not_or, hdc, or_false,
    not_false_eq_true, and_true, true_and]
  exact ⟨hwd _ (by omega), by decide, by decide, hmo _ (by omega), by decide, by decide,
    by decide, by decide, by decide⟩


theorem AuthPlace_fields (cr : Crypto) (T zone : Int) (place : Str) (hp : ';' ∉ place)
    (hy : 0 ≤ (absDate ((T / 1000000000 + zone) / 86400)).1 ∧
      (absDate ((T / 1000000000 + zone) / 86400)).1 ≤ 9999) :
    Split (AuthPlace cr T zone place) ';' = [place, FormatHTTPTime T zone, GenCSRFToken cr] := by
  unfold AuthPlace
  rw [show ";".toList = [';'] from rfl]
  simp only [List.append_assoc, List.cons_append, List.nil_append]
  rw [Split_append_sep _ _ _ hp, Split_append_sep _ _ _ (FormatHTTPTime_no_semicolon T zone hy),
    Split_of_not_mem (GenCSRFToken cr) _ (base64Encode_no_semicolon _)]

theorem AuthPlace_semicolon (cr : Crypto) (T zone : Int) (place : Str) (hp : ';' ∈ place) :
    3 < (Split (AuthPlace cr T zone place) ';').length := by
  rw [Split_length]
  unfold AuthPlace
  rw [show ";".toList = [';'] from rfl]
  simp only [List.count_append, List.count_cons_self, List.count_nil]
  have : 0 < place.count ';' := List.count_pos_iff.2 hp
  omega

/-- What `ParsePlaceAuth` makes of the payload `AuthPlace` builds in a zone:
the printed wall clock is read back as UTC. -/
theorem ParsePlaceAuth_AuthPlace (cr : Crypto) (T zone now : Int) (place : Str)
    (hp : ';' ∉ place)
    (hy : 0 ≤ (absDate ((T / 1000000000 + zone) / 86400)).1 ∧
      (absDate ((T / 1000000000 + zone) / 86400)).1 ≤ 9999) :
    ParsePlaceAuth now (.ok (AuthPlace cr T zone place)) =
      if now > (T / 1000000000 + zone) * 1000000000 + 86400000000000
      then (place, [], some .authTokenExpired)
      else (place, GenCSRFToken cr, none) := by
  rw [ParsePlaceAuth_of_fields now _ _ _ _ (AuthPlace_fields cr T zone place hp hy),
    ParseHTTPTime_FormatHTTPTime T zone hy]

/-- The payload built at 12:30:45 UTC by a server whose local zone is five hours
west of UTC prints 07:30:45, and is rejected as expired 20 hours after it
was issued. -/
theorem ParsePlaceAuth_AuthPlace_west_zone :
    FormatHTTPTime exampleInstant (-18000) = "Wed, 15 Jun 2016 07:30:45 GMT".toList ∧
    ParsePlaceAuth (exampleInstant + 20 * 3600 * 1000000000)
        (.ok (AuthPlace exampleCrypto exampleInstant (-18000) "shop1".toList))
      = ("shop1".toList, [], some .authTokenExpired) := by
  constructor <;> decide

/-! ## Helper lemmas: the receipt of "/place/op" -/

/-- The handler of "/place/op" after authentication, the token check and field
parsing, when `AddOperation` reports success: with amount 0 it panics at
`discount*100/amount`, otherwise it serves the receipt. -/
theorem handlePlaceOp_receipt (pages : Pages) (f : Faults) (now opNow : Int) (s s1 : Store)
    (r : Request) (place csrf : Str) (card amount cash discount : Nat)
    (hauth : ParsePlaceAuth now r.cookie = (place, csrf, none))
    (htok : r.form "CSRFToken".toList = csrf)
    (hcard : ParseUserID (r.form "card".toList) = .ok card)
    (hamount : ParseCashCount (r.form "amount".toList) = .ok amount)
    (hcash : ParseCashCount (r.form "plus".toList) = .ok cash)
    (hop : AddOperation f opNow s place card amount cash = .returned (discount, none) s1) :
    (amount = 0 →
      handlePlaceOp pages f now opNow s r
        = ⟨none, s1, none, [.addOperation place card amount cash]⟩) ∧
    (amount ≠ 0 →
      ∃ resp, handlePlaceOp pages f now opNow s r
        = ⟨some resp, s1, none, [.addOperation place card amount cash]⟩) := by
  unfold handlePlaceOp
  rw [hauth]
  simp only []
  rw [if_neg (not_not.mpr htok), hcard, hamount, hcash]
  simp only []
  rw [hop]
  simp only []
  constructor
  · intro h0
    rw [if_pos h0]
  · intro h0
    rw [if_neg h0]
    exact ⟨_, rfl⟩

/-- The expiry test of `ParsePlaceAuth` relative to the payload: for a payload
of three fields whose timestamp field parses to the instant `T`,
`ParsePlaceAuth` at the instant `now` fails with "auth token expired" exactly
when `now > T + 24 hours` and otherwise returns the place and the token.  `T`
is what the payload says, which need not be the instant of issue. -/
theorem ParsePlaceAuth_expiry (val place ts csrf : Str) (T now : Int)
    (hs : Split val ';' = [place, ts, csrf]) (ht : ParseHTTPTime ts = .ok T) :
    ((ParsePlaceAuth now (.ok val)).2.2 = some .authTokenExpired
        ↔ now > T + 24 * 3600 * 1000000000) ∧
    (now ≤ T + 24 * 3600 * 1000000000 → ParsePlaceAuth now (.ok val) = (place, csrf, none)) ∧
    (now > T + 24 * 3600 * 1000000000 →
      ParsePlaceAuth now (.ok val) = (place, [], some .authTokenExpired)) ∧
    ParsePlaceAuth (T + (23 * 3600 + 59 * 60) * 1000000000) (.ok val) = (place, csrf, none) ∧
    ParsePlaceAuth (T + (24 * 3600 + 1) * 1000000000) (.ok val)
      = (place, [], some .authTokenExpired) := by
  have key : ∀ n : Int, ParsePlaceAuth n (.ok val) =
      if n > T + 86400000000000 then (place, [], some .authTokenExpired)
      else (place, csrf, none) := by
    intro n
    rw [ParsePlaceAuth_of_fields n val place ts csrf hs, ht]
  refine ⟨?_, ?_, ?_, ?_, ?_⟩
  · rw [key now]
    constructor
    · intro h
      by_contra hn
      rw [if_neg (by omega)] at h
      cases h
    · intro h
      rw [if_pos (by omega)]
  · intro h
    rw [key now, if_neg (by omega)]
  · intro h
    rw [key now, if_pos (by omega)]
  · rw [key, if_neg (by omega)]
  · rw [key, if_pos (by omega)]

/-- The expiry test on the payload "shop1;Wed, 15 Jun 2016 12:30:45 GMT;c2VjcmV0",
read 24 hours and half a second after its timestamp. -/
theorem ParsePlaceAuth_expiry_witness :
    ((ParsePlaceAuth (exampleInstant + 86400500000000) (.ok examplePayload)).2.2
        = some .authTokenExpired
        ↔ exampleInstant + 86400500000000 > exampleInstant + 24 * 3600 * 1000000000) ∧
    ParsePlaceAuth (exampleInstant + (23 * 3600 + 59 * 60) * 1000000000) (.ok examplePayload)
      = ("shop1".toList, "c2VjcmV0".toList, none) ∧
    ParsePlaceAuth (exampleInstant + (24 * 3600 + 1) * 1000000000) (.ok examplePayload)
      = ("shop1".toList, [], some .authTokenExpired) :=
  have h := ParsePlaceAuth_expiry examplePayload "shop1".toList
    "Wed, 15 Jun 2016 12:30:45 GMT".toList "c2VjcmV0".toList exampleInstant
    (exampleInstant + 86400500000000) (by decide) (by decide)
  ⟨h.1, h.2.2.2.1, h.2.2.2.2⟩

/-- C2: `GetMLCDiscountPercent` is the step function 5 / 10 / 15 / 20 / 25 with
thresholds 25000, 35000, 45000, 65000; a balance exactly at a threshold gets
that threshold's rate, and the eight boundary values are as listed. -/
theorem GetMLCDiscountPercent_steps :
    (∀ b : Nat, GetMLCDiscountPercent b =
        if b ≥ 65000 then 25 else if b ≥ 45000 then 20 else if b ≥ 35000 then 15
        else if b ≥ 25000 then 10 else 5) ∧
    (∀ b : Nat, b < 25000 → GetMLCDiscountPercent b = 5) ∧
    (∀ b : Nat, 25000 ≤ b → b < 35000 → GetMLCDiscountPercent b = 10) ∧
    (∀ b : Nat, 35000 ≤ b → b < 45000 → GetMLCDiscountPercent b = 15) ∧
    (∀ b : Nat, 45000 ≤ b → b < 65000 → GetMLCDiscountPercent b = 20) ∧
    (∀ b : Nat, 65000 ≤ b → GetMLCDiscountPercent b = 25) ∧
    GetMLCDiscountPercent 24999 = 5 ∧ GetMLCDiscountPercent 25000 = 10 ∧
    GetMLCDiscountPercent 34999 = 10 ∧ GetMLCDiscountPercent 35000 = 15 ∧
    GetMLCDiscountPercent 44999 = 15 ∧ GetMLCDiscountPercent 45000 = 20 ∧
    GetMLCDiscountPercent 64999 = 20 ∧ GetMLCDiscountPercent 65000 = 25 := by
  refine ⟨fun b => rfl, ?_, ?_, ?_, ?_, ?_, by decide, by decide, by decide, by decide,
    by decide, by decide, by decide, by decide⟩
  all_goals
    intro b
    unfold GetMLCDiscountPercent
    intros
    split_ifs <;> omega

/-- C1: when both lookups of `AddOperation` succeed (the card's balance read
is `b`, the place's id is `pid`) and `amount` is a `uint32`, the product
`amount / 100 * GetMLCDiscountPercent b` fits in 32 bits, every return of
`AddOperation` carries exactly that product as the discount, `AddOperation`
does return unless the row count query panics, and when the `INSERT` succeeds
the appended operation row holds the same discount. -/
theorem AddOperation_discount (f : Faults) (now : Int) (s : Store) (place : Str)
    (card amount cash b pid : Nat) (ha : amount < 2 ^ 32)
    (hb : GetCardBalance f s card = .ok b) (hp : GetPlaceID f s place = .ok pid) :
    amount / 100 * GetMLCDiscountPercent b < 2 ^ 32 ∧
    (∀ r s', AddOperation f now s place card amount cash = .returned r s' →
        r.1 = amount / 100 * GetMLCDiscountPercent b) ∧
    (∀ n, CountOperations f s = some n →
        ∃ e s', AddOperation f now s place card amount cash
            = .returned (amount / 100 * GetMLCDiscountPercent b, e) s' ∧
          (f.insertOperation = false →
            e = none ∧ s'.operations = s.operations ++
              [⟨n, card, pid, amount, amount / 100 * GetMLCDiscountPercent b, cash, now⟩])) := by
  have hd := discount_mod amount b ha
  refine ⟨discount_lt amount b ha, ?_, ?_⟩
  · intro r s' h
    cases hc : CountOperations f s with
    | none =>
      rw [AddOperation_eq_of_count_panic f now s place card amount cash b pid hb hp hc] at h
      cases h
    | some n =>
      cases hi : f.insertOperation with
      | true =>
        rw [AddOperation_eq_of_insert_error f now s place card amount cash b pid n hb hp hc hi,
          hd] at h
        injection h with h1 _
        rw [← h1]
      | false =>
        rw [AddOperation_eq_of_insert f now s place card amount cash b pid n hb hp hc hi,
          hd] at h
        injection h with h1 _
        rw [← h1]
  · intro n hc
    cases hi : f.insertOperation with
    | true =>
      refine ⟨some .driverError, s, ?_, fun h => by cases h⟩
      rw [AddOperation_eq_of_insert_error f now s place card amount cash b pid n hb hp hc hi, hd]
    | false =>
      rw [AddOperation_eq_of_insert f now s place card amount cash b pid n hb hp hc hi, hd]
      refine ⟨none, _, rfl, fun _ => ⟨rfl, ?_⟩⟩
      rw [IncrementCardCount_operations, AddCardBalance_operations, AddPlaceCash_operations]

/-- C1 at a concrete call: card 7 (balance 30000) at "shop1", amount 10000. -/
theorem AddOperation_discount_witness :
    (10000 : Nat) / 100 * GetMLCDiscountPercent 30000 < 2 ^ 32 ∧
    (∀ r s', AddOperation Faults.none 5 shopStore "shop1".toList 7 10000 10000
        = .returned r s' → r.1 = 10000 / 100 * GetMLCDiscountPercent 30000) ∧
    (∀ n, CountOperations Faults.none shopStore = some n →
        ∃ e s', AddOperation Faults.none 5 shopStore "shop1".toList 7 10000 10000
            = .returned (10000 / 100 * GetMLCDiscountPercent 30000, e) s' ∧
          (Faults.none.insertOperation = false →
            e = none ∧ s'.operations = shopStore.operations ++
              [⟨n, 7, 0, 10000, 10000 / 100 * GetMLCDiscountPercent 30000, 10000, 5⟩])) :=
  AddOperation_discount Faults.none 5 shopStore "shop1".toList 7 10000 10000 30000 0
    (by decide) (by decide) (by decide)

/-- C3: when the card and the place are found, `amount` is a `uint32` and
every statement of the call succeeds, `AddOperation` returns success with the
discount `amount / 100 * GetMLCDiscountPercent b`, appends exactly one
operation row (next id, card id, place id, amount, discount, cash), adds the
discount to the cash float of the rows of `places` with the place's id and
leaves the other place rows as they are, adds `amount` to the balance and one to
the count of the rows of `cards` with the card's id and leaves the other card
rows as they are; re-reading the balance gives `b + amount`, and for balance
30000 and amount 10000 the discount is 1000 and the new balance 40000. -/
theorem AddOperation_effects (f : Faults) (now : Int) (s : Store) (place : Str)
    (card amount cash b pid : Nat) (ha : amount < 2 ^ 32)
    (hb : GetCardBalance f s card = .ok b) (hp : GetPlaceID f s place = .ok pid)
    (hn : s.operations.length < 2 ^ 32)
    (hf : f.countRows = false ∧ f.insertOperation = false ∧ f.addPlaceCash = false ∧
      f.addCardBalance = false ∧ f.incrementCardCount = false) :
    ∃ s', AddOperation f now s place card amount cash
        = .returned (amount / 100 * GetMLCDiscountPercent b, none) s' ∧
      s'.operations = s.operations ++
        [⟨s.operations.length, card, pid, amount, amount / 100 * GetMLCDiscountPercent b,
          cash, now⟩] ∧
      s'.places = (s.places.map fun p =>
        if p.id = pid then { p with cash := p.cash + amount / 100 * GetMLCDiscountPercent b }
        else p) ∧
      s'.cards = (s.cards.map fun c =>
        if c.id = card then { c with balance := c.balance + amount, count := c.count + 1 }
        else c) ∧
      GetCardBalance f s' card = scanUint32 (b + amount) ∧
      (b = 30000 → amount = 10000 →
        amount / 100 * GetMLCDiscountPercent b = 1000 ∧ GetCardBalance f s' card = .ok 40000) := by
  obtain ⟨hf1, hf2, hf3, hf4, hf5⟩ := hf
  have hc : CountOperations f s = some s.operations.length :=
    CountRows_eq_some f s .operations hf1 hn
  rw [AddOperation_eq_of_insert f now s place card amount cash b pid _ hb hp hc hf2,
    discount_mod amount b ha]
  have hcards : (IncrementCardCount f (AddCardBalance f (AddPlaceCash f
        { s with operations := s.operations ++
            [⟨s.operations.length, card, pid, amount, amount / 100 * GetMLCDiscountPercent b,
              cash, now⟩] }
        pid (amount / 100 * GetMLCDiscountPercent b)).2 card amount).2 card).2.cards
      = (s.cards.map fun c =>
        if c.id = card then { c with balance := c.balance + amount, count := c.count + 1 }
        else c) := by
    simp only [IncrementCardCount, AddCardBalance, AddPlaceCash, hf3, hf4, hf5,
      Bool.false_eq_true, if_false, List.map_map]
    apply List.map_congr_left
    intro c _
    by_cases h : c.id = card <;> simp [h]
  have hread := GetCardBalance_after f s _ card amount b hb hcards
  refine ⟨_, rfl, ?_, ?_, hcards, hread, ?_⟩
  · rw [IncrementCardCount_operations, AddCardBalance_operations, AddPlaceCash_operations]
  · simp only [IncrementCardCount, AddCardBalance, AddPlaceCash, hf3, hf4, hf5,
      Bool.false_eq_true, if_false]
  · rintro rfl rfl
    exact ⟨by decide, by rw [hread]; rfl⟩

/-- C3 at the store of the examples: card 7 with balance 30000, place "shop1",
amount 10000. -/
theorem AddOperation_effects_witness :
    ∃ s', AddOperation Faults.none 5 shopStore "shop1".toList 7 10000 12000
        = .returned (10000 / 100 * GetMLCDiscountPercent 30000, none) s' ∧
      s'.operations = shopStore.operations ++
        [⟨shopStore.operations.length, 7, 0, 10000, 10000 / 100 * GetMLCDiscountPercent 30000,
          12000, 5⟩] ∧
      s'.places = (shopStore.places.map fun p =>
        if p.id = 0 then { p with cash := p.cash + 10000 / 100 * GetMLCDiscountPercent 30000 }
        else p) ∧
      s'.cards = (shopStore.cards.map fun c =>
        if c.id = 7 then { c with balance := c.balance + 10000, count := c.count + 1 }
        else c) ∧
      GetCardBalance Faults.none s' 7 = scanUint32 (30000 + 10000) ∧
      ((30000 : Nat) = 30000 → (10000 : Nat) = 10000 →
        10000 / 100 * GetMLCDiscountPercent 30000 = 1000 ∧
          GetCardBalance Faults.none s' 7 = .ok 40000) :=
  AddOperation_effects Faults.none 5 shopStore "shop1".toList 7 10000 12000 30000 0
    (by decide) (by decide) (by decide) (by decide) (by decide)

/-- C4: when the card-balance lookup fails, or the place-id lookup fails,
`AddOperation` returns an error (with discount 0) and the store it leaves is
the store it was called on. -/
theorem AddOperation_lookup_failure (f : Faults) (now : Int) (s : Store) (place : Str)
    (card amount cash : Nat)
    (h : (∃ e, GetCardBalance f s card = .error e) ∨ (∃ e, GetPlaceID f s place = .error e)) :
    ∃ e, AddOperation f now s place card amount cash = .returned (0, some e) s := by
  unfold AddOperation
  cases hb : GetCardBalance f s card with
  | error e => exact ⟨e, rfl⟩
  | ok b =>
    rcases h with ⟨e, he⟩ | ⟨e, he⟩
    · rw [hb] at he
      cases he
    · refine ⟨e, ?_⟩
      simp only []
      rw [he]

/-- C4 at the store of the examples: card 99 does not exist. -/
theorem AddOperation_lookup_failure_witness :
    ∃ e, AddOperation Faults.none 5 shopStore "shop1".toList 99 10000 12000
      = .returned (0, some e) shopStore :=
  AddOperation_lookup_failure Faults.none 5 shopStore "shop1".toList 99 10000 12000
    (Or.inl ⟨.errNoRows, by decide⟩)

/-- C9: a call of `AddOperation` in which the three `UPDATE` statements fail
(cash float, card balance, card count) after a successful `INSERT`: the call
reports success (discount 1000, nil error), and the store holds the new
operation row with no place or card row changed. -/
theorem AddOperation_drops_update_errors :
    AddOperation Faults.updates 5 shopStore "shop1".toList 7 10000 12000
      = .returned (1000, none)
          { shopStore with operations := [⟨0, 7, 0, 10000, 1000, 12000, 5⟩] } ∧
    (AddPlaceCash Faults.updates shopStore 0 1000).1 = some .driverError ∧
    (AddCardBalance Faults.updates shopStore 7 10000).1 = some .driverError ∧
    (IncrementCardCount Faults.updates shopStore 7).1 = some .driverError := by
  refine ⟨?_, ?_, ?_, ?_⟩ <;> decide

/-- C10: on a store whose `cards` table holds exactly the ids `0 .. kc-1`, the
ids returned by the successful calls of a sequence of `AddCard` calls are
`kc, kc+1, ...` in order (strictly increasing, none of them an existing id, no
gaps), the table then holds exactly `0 .. kc+m-1`, and when no statement fails
and `kc + N ≤ 2^32` all `N` calls succeed and return `kc, ..., kc+N-1`; the same
for the ids of the rows that sequences of `InsertOperation` and `AddPlace`
calls append to `operations` and `places`. -/
theorem count_based_ids_sequential (s : Store) (kc ko kp : Nat) (cards : List CardCall)
    (ops : List OperationCall) (places : List PlaceCall)
    (hc : (s.cards.map fun c => c.id).Perm (List.range kc))
    (ho : (s.operations.map fun o => o.id).Perm (List.range ko))
    (hp : (s.places.map fun p => p.id).Perm (List.range kp)) :
    (returnedIds (AddCardSeq s cards).1
        = List.range' kc (returnedIds (AddCardSeq s cards).1).length ∧
      (returnedIds (AddCardSeq s cards).1).Pairwise (fun a b => a < b) ∧
      (∀ i ∈ returnedIds (AddCardSeq s cards).1, i ∉ s.cards.map fun c => c.id) ∧
      (AddCardSeq s cards).2.cards.map (fun c => c.id)
        = s.cards.map (fun c => c.id) ++ returnedIds (AddCardSeq s cards).1 ∧
      ((AddCardSeq s cards).2.cards.map fun c => c.id).Perm
        (List.range (kc + (returnedIds (AddCardSeq s cards).1).length)) ∧
      ((∀ c ∈ cards, c.faults.countRows = false ∧ c.faults.insertCard = false) →
        kc + cards.length ≤ 2 ^ 32 →
        (AddCardSeq s cards).1 = (List.range' kc cards.length).map (fun i => some (i, none)) ∧
        returnedIds (AddCardSeq s cards).1 = List.range' kc cards.length)) ∧
    ((InsertOperationSeq s ops).2.operations.map (fun o => o.id)
        = s.operations.map (fun o => o.id)
            ++ List.range' ko (successes (InsertOperationSeq s ops).1) ∧
      ((InsertOperationSeq s ops).2.operations.map fun o => o.id).Perm
        (List.range (ko + successes (InsertOperationSeq s ops).1)) ∧
      ((∀ c ∈ ops, c.faults.countRows = false ∧ c.faults.insertOperation = false) →
        ko + ops.length ≤ 2 ^ 32 →
        (InsertOperationSeq s ops).1 = List.replicate ops.length (some none) ∧
        successes (InsertOperationSeq s ops).1 = ops.length)) ∧
    ((AddPlaceSeq s places).2.places.map (fun p => p.id)
        = s.places.map (fun p => p.id) ++ List.range' kp (successes (AddPlaceSeq s places).1) ∧
      ((AddPlaceSeq s places).2.places.map fun p => p.id).Perm
        (List.range (kp + successes (AddPlaceSeq s places).1)) ∧
      ((∀ c ∈ places, c.faults.countRows = false ∧ c.faults.insertPlace = false ∧
          ∃ h, CryptNewPassword c.crypto c.password = .ok h) →
        kp + places.length ≤ 2 ^ 32 →
        (AddPlaceSeq s places).1 = List.replicate places.length (some none) ∧
        successes (AddPlaceSeq s places).1 = places.length)) := by
  have hkc : s.cards.length = kc := by simpa using hc.length_eq
  have hko : s.operations.length = ko := by simpa using ho.length_eq
  have hkp : s.places.length = kp := by simpa using hp.length_eq
  obtain ⟨c1, c2, c3⟩ := AddCardSeq_ids cards s kc hkc
  obtain ⟨o1, o2⟩ := InsertOperationSeq_ids ops s ko hko
  obtain ⟨p1, p2⟩ := AddPlaceSeq_ids places s kp hkp
  have hsucc : ∀ n : Nat, successes (List.replicate n (some none)) = n := by
    intro n
    induction n with
    | zero => rfl
    | succ n ih => simp [List.replicate_succ, successes, ih]
  have hret : ∀ k n : Nat,
      returnedIds ((List.range' k n).map fun i => some (i, none)) = List.range' k n := by
    intro k n
    induction n generalizing k with
    | zero => rfl
    | succ n ih => simp [List.range'_succ, returnedIds, ih]
  refine ⟨⟨c1, ?_, ?_, c2, ?_, fun hall hlen => ?_⟩, ⟨o1, ?_, fun hall hlen => ?_⟩,
    ⟨p1, ?_, fun hall hlen => ?_⟩⟩
  · rw [c1]
    exact List.pairwise_lt_range' _ _
  · intro i hi
    rw [c1, List.mem_range'_1] at hi
    exact not_mem_of_perm_range _ kc i hc hi.1
  · rw [c2, ← range_append_range', ← c1]
    exact hc.append_right _
  · have h := c3 hall hlen
    refine ⟨h, ?_⟩
    rw [h, hret]
  · rw [o1, ← range_append_range']
    exact ho.append_right _
  · have h := o2 hall hlen
    refine ⟨h, ?_⟩
    rw [h, hsucc]
  · rw [p1, ← range_append_range']
    exact hp.append_right _
  · have h := p2 hall hlen
    refine ⟨h, ?_⟩
    rw [h, hsucc]

/-- C10 on a store whose tables hold the ids 0 and 1: two `AddCard` calls return
2 and 3, two `InsertOperation` calls and one `AddPlace` call all succeed. -/
theorem count_based_ids_sequential_witness :
    ((seqStore.cards.map fun c => c.id).Perm (List.range 2) ∧
      (seqStore.operations.map fun o => o.id).Perm (List.range 2) ∧
      (seqStore.places.map fun p => p.id).Perm (List.range 2)) ∧
    returnedIds (AddCardSeq seqStore exampleCardCalls).1 = List.range' 2 2 ∧
    successes (InsertOperationSeq seqStore exampleOperationCalls).1 = 2 ∧
    successes (AddPlaceSeq seqStore examplePlaceCalls).1 = 1 :=
  have h := count_based_ids_sequential seqStore 2 2 2 exampleCardCalls exampleOperationCalls
    examplePlaceCalls (by decide) (by decide) (by decide)
  ⟨⟨by decide, by decide, by decide⟩,
    (h.1.2.2.2.2.2
      (by
        intro c hc
        simp only [exampleCardCalls, List.mem_cons, List.mem_singleton, List.mem_nil_iff,
          or_false] at hc
        rcases hc with rfl | rfl <;> exact ⟨rfl, rfl⟩)
      (by decide)).2,
    (h.2.1.2.2
      (by
        intro c hc
        simp only [exampleOperationCalls, List.mem_cons, List.mem_singleton, List.mem_nil_iff,
          or_false] at hc
        rcases hc with rfl | rfl <;> exact ⟨rfl, rfl⟩)
      (by decide)).2,
    (h.2.2.2.2
      (by
        intro c hc
        simp only [examplePlaceCalls, List.mem_cons, List.mem_singleton, List.mem_nil_iff,
          or_false] at hc
        subst hc
        exact ⟨rfl, rfl, _, rfl⟩)
      (by decide)).2⟩

/-- C6: sessions that `AuthPlace` issues for "shop1" at the instant `T` =
2016-06-15 12:30:45 UTC on servers in three local zones.  Five hours west of
UTC the payload carries 07:30:45 and `ParsePlaceAuth` rejects it as expired at
`T + 20h` and at `T + 23h59m`; nine hours east of UTC it carries 21:30:45 and
is still accepted at `T + 30h`; in UTC it carries 12:30:45, is accepted at
`T + 23h59m` and rejected at `T + 24h0m1s`. -/
theorem AuthPlace_local_zone_breaks_ttl :
    (FormatHTTPTime exampleInstant (-18000) = "Wed, 15 Jun 2016 07:30:45 GMT".toList ∧
      ParsePlaceAuth (exampleInstant + 20 * 3600 * 1000000000)
          (.ok (AuthPlace exampleCrypto exampleInstant (-18000) "shop1".toList))
        = ("shop1".toList, [], some .authTokenExpired) ∧
      ParsePlaceAuth (exampleInstant + (23 * 3600 + 59 * 60) * 1000000000)
          (.ok (AuthPlace exampleCrypto exampleInstant (-18000) "shop1".toList))
        = ("shop1".toList, [], some .authTokenExpired)) ∧
    (FormatHTTPTime exampleInstant 32400 = "Wed, 15 Jun 2016 21:30:45 GMT".toList ∧
      ParsePlaceAuth (exampleInstant + (24 * 3600 + 1) * 1000000000)
          (.ok (AuthPlace exampleCrypto exampleInstant 32400 "shop1".toList))
        = ("shop1".toList, GenCSRFToken exampleCrypto, none) ∧
      ParsePlaceAuth (exampleInstant + 30 * 3600 * 1000000000)
          (.ok (AuthPlace exampleCrypto exampleInstant 32400 "shop1".toList))
        = ("shop1".toList, GenCSRFToken exampleCrypto, none)) ∧
    (FormatHTTPTime exampleInstant 0 = "Wed, 15 Jun 2016 12:30:45 GMT".toList ∧
      ParsePlaceAuth (exampleInstant + (23 * 3600 + 59 * 60) * 1000000000)
          (.ok (AuthPlace exampleCrypto exampleInstant 0 "shop1".toList))
        = ("shop1".toList, GenCSRFToken exampleCrypto, none) ∧
      ParsePlaceAuth (exampleInstant + (24 * 3600 + 1) * 1000000000)
          (.ok (AuthPlace exampleCrypto exampleInstant 0 "shop1".toList))
        = ("shop1".toList, [], some .authTokenExpired)) := by
  refine ⟨⟨?_, ?_, ?_⟩, ⟨?_, ?_, ?_⟩, ⟨?_, ?_, ?_⟩⟩ <;> decide

/-- C7: a cookie value that does not split into exactly three fields at ';'
makes `ParsePlaceAuth` fail with "invalid auth token" and return an empty
place and an empty token; a value of three fields whose second field
`time.Parse` rejects makes it fail with that parse error and an empty token;
the empty value `DeauthPlace` writes is rejected. -/
theorem ParsePlaceAuth_malformed (now : Int) :
    (∀ val : Str, (Split val ';').length ≠ 3 →
      ParsePlaceAuth now (.ok val) = ([], [], some .invalidAuthToken)) ∧
    (∀ (val place ts csrf : Str) (e : GoError), Split val ';' = [place, ts, csrf] →
      ParseHTTPTime ts = .error e → ParsePlaceAuth now (.ok val) = (place, [], some e)) ∧
    (Split DeauthPlace ';').length = 1 ∧
    ParsePlaceAuth now (.ok DeauthPlace) = ([], [], some .invalidAuthToken) := by
  have h1 : ∀ val : Str, (Split val ';').length ≠ 3 →
      ParsePlaceAuth now (.ok val) = ([], [], some .invalidAuthToken) := by
    intro val h
    unfold ParsePlaceAuth
    simp only [h, ne_eq, not_false_eq_true, if_true]
  refine ⟨h1, ?_, by decide, h1 _ (by decide)⟩
  intro val place ts csrf e hs he
  rw [ParsePlaceAuth_of_fields now val place ts csrf hs, he]


/-- C8 (as stated) fails: a session issued by a server in UTC at 12:30:45.5 is
rejected as expired exactly 24 hours later, an instant not after `T + 24h`;
the payload carries whole seconds only. -/
theorem AuthPlace_subsecond_rejected :
    ';' ∉ "shop1".toList ∧
    (exampleInstant + 500000000) + 24 * 3600 * 1000000000
      ≤ (exampleInstant + 500000000) + 24 * 3600 * 1000000000 ∧
    ParsePlaceAuth ((exampleInstant + 500000000) + 24 * 3600 * 1000000000)
        (.ok (AuthPlace exampleCrypto (exampleInstant + 500000000) 0 "shop1".toList))
      = ("shop1".toList, [], some .authTokenExpired) ∧
    ParsePlaceAuth ((exampleInstant + 500000000) + 24 * 3600 * 1000000000)
        (.ok (AuthPlace exampleCrypto (exampleInstant + 500000000) 0 "shop1".toList))
      ≠ ("shop1".toList, GenCSRFToken exampleCrypto, none) := by
  refine ⟨?_, ?_, ?_, ?_⟩ <;> decide

/-- C8 (amended): on a server whose local zone is UTC, for an issuance instant
`T` in a year of four digits and any token `GenCSRFToken` produces, the payload
`AuthPlace` builds for a place name without ';' is accepted by `ParsePlaceAuth`
at every `now` up to 24 hours after `T` cut to whole seconds, with exactly that
place and token, and rejected as expired after that; for a place name with ';'
the payload splits into more than 3 fields and is rejected. -/
theorem AuthPlace_ParsePlaceAuth_roundtrip (cr : Crypto) (T now : Int) (place : Str)
    (hy : 0 ≤ Year T ∧ Year T ≤ 9999) :
    (';' ∉ place →
      (now ≤ T / 1000000000 * 1000000000 + 24 * 3600 * 1000000000 →
        ParsePlaceAuth now (.ok (AuthPlace cr T 0 place)) = (place, GenCSRFToken cr, none)) ∧
      (now > T / 1000000000 * 1000000000 + 24 * 3600 * 1000000000 →
        ParsePlaceAuth now (.ok (AuthPlace cr T 0 place))
          = (place, [], some .authTokenExpired))) ∧
    (';' ∈ place →
      3 < (Split (AuthPlace cr T 0 place) ';').length ∧
      ParsePlaceAuth now (.ok (AuthPlace cr T 0 place)) = ([], [], some .invalidAuthToken)) := by
  have hy' : 0 ≤ (absDate ((T / 1000000000 + 0) / 86400)).1 ∧
      (absDate ((T / 1000000000 + 0) / 86400)).1 ≤ 9999 := by
    rw [add_zero]
    exact hy
  constructor
  · intro hp
    have key := ParsePlaceAuth_AuthPlace cr T 0 now place hp hy'
    rw [add_zero] at key
    constructor
    · intro h
      rw [key, if_neg (by omega)]
    · intro h
      rw [key, if_pos (by omega)]
  · intro hp
    have hlen := AuthPlace_semicolon cr T 0 place hp
    refine ⟨hlen, ?_⟩
    unfold ParsePlaceAuth
    simp only []
    rw [if_pos (by omega)]

/-- C8 (amended) for place "shop1" and a session issued at 12:30:45.5 UTC. -/
theorem AuthPlace_ParsePlaceAuth_roundtrip_witness :
    (0 ≤ Year (exampleInstant + 500000000) ∧ Year (exampleInstant + 500000000) ≤ 9999) ∧
    (exampleInstant + 86400000000000 ≤
        (exampleInstant + 500000000) / 1000000000 * 1000000000 + 24 * 3600 * 1000000000 →
      ParsePlaceAuth (exampleInstant + 86400000000000)
          (.ok (AuthPlace exampleCrypto (exampleInstant + 500000000) 0 "shop1".toList))
        = ("shop1".toList, GenCSRFToken exampleCrypto, none)) :=
  ⟨by decide,
    ((AuthPlace_ParsePlaceAuth_roundtrip exampleCrypto (exampleInstant + 500000000)
      (exampleInstant + 86400000000000) "shop1".toList (by decide)).1 (by decide)).1⟩

/-- C5: a request with a valid session whose form value "CSRFToken" differs
from the token of the session (the empty string and any other session's token
included) leaves the store as it is, sets no cookie and makes none of the
calls `AddOperation`, `AddCard`, `DeauthPlace`: "/place/op" and
"/admin/new_user" answer with their form (or a redirect to "/place/main" for a
place other than "admin"), "/place/logout" redirects to "/place/main". -/
theorem csrf_mismatch_no_effect (pages : Pages) (f : Faults) (now opNow : Int) (s : Store)
    (r : Request) (place csrf : Str)
    (hauth : ParsePlaceAuth now r.cookie = (place, csrf, none))
    (hne : r.form "CSRFToken".toList ≠ csrf) :
    handlePlaceOp pages f now opNow s r
      = ⟨some (servePage pages.placeOpSpl [csrf]), s, none, []⟩ ∧
    handleAdminNewUser pages f now s r
      = ⟨some (if place ≠ "admin".toList then .redirect "/place/main".toList
          else servePage pages.newUserSpl [csrf]), s, none, []⟩ ∧
    handlePlaceLogout now s r = ⟨some (.redirect "/place/main".toList), s, none, []⟩ := by
  refine ⟨?_, ?_, ?_⟩
  · unfold handlePlaceOp
    rw [hauth]
    simp only []
    rw [if_pos hne]
  · unfold handleAdminNewUser
    rw [hauth]
    simp only []
    by_cases hp : place ≠ "admin".toList
    · rw [if_pos hp, if_pos hp]
    · rw [if_neg hp, if_neg hp, if_pos hne]
  · unfold handlePlaceLogout
    rw [hauth]
    simp only []
    rw [if_neg hne]

/-- C5 for the session of "shop1" with token "c2VjcmV0" and an empty form value. -/
theorem csrf_mismatch_no_effect_witness :
    handlePlaceOp examplePages Faults.none (exampleInstant + 5) (exampleInstant + 6) shopStore
        (exampleRequest [])
      = ⟨some (servePage examplePages.placeOpSpl ["c2VjcmV0".toList]), shopStore, none, []⟩ ∧
    handleAdminNewUser examplePages Faults.none (exampleInstant + 5) shopStore (exampleRequest [])
      = ⟨some (if "shop1".toList ≠ "admin".toList then .redirect "/place/main".toList
          else servePage examplePages.newUserSpl ["c2VjcmV0".toList]), shopStore, none, []⟩ ∧
    handlePlaceLogout (exampleInstant + 5) shopStore (exampleRequest [])
      = ⟨some (.redirect "/place/main".toList), shopStore, none, []⟩ :=
  csrf_mismatch_no_effect examplePages Faults.none (exampleInstant + 5) (exampleInstant + 6)
    shopStore (exampleRequest []) "shop1".toList "c2VjcmV0".toList (by decide) (by decide)

/-- C11: a request to "/place/op" with a valid session, the right token, card
"7", amount "0" and cash "0": `ParseCashCount` accepts "0", `AddOperation`
succeeds with discount 0 and stores the operation row and the raised usage
count, and the handler then panics at `discount*100/amount` (no response is
written); with amount "10000" the same request is answered with the receipt. -/
theorem handlePlaceOp_zero_amount_panics :
    ParseCashCount "0".toList = .ok 0 ∧
    AddOperation Faults.none (exampleInstant + 6) shopStore "shop1".toList 7 0 0
      = .returned (0, none)
          { shopStore with
            operations := [⟨0, 7, 0, 0, 0, 0, exampleInstant + 6⟩]
            cards := [⟨3, "Ann".toList, [], [], 100, 1, false⟩,
              ⟨7, "Bob".toList, [], [], 30000, 5, true⟩] } ∧
    handlePlaceOp examplePages Faults.none (exampleInstant + 5) (exampleInstant + 6) shopStore
        (exampleOpRequest "0".toList "0".toList)
      = ⟨none,
          { shopStore with
            operations := [⟨0, 7, 0, 0, 0, 0, exampleInstant + 6⟩]
            cards := [⟨3, "Ann".toList, [], [], 100, 1, false⟩,
              ⟨7, "Bob".toList, [], [], 30000, 5, true⟩] },
          none, [.addOperation "shop1".toList 7 0 0]⟩ ∧
    (handlePlaceOp examplePages Faults.none (exampleInstant + 5) (exampleInstant + 6) shopStore
        (exampleOpRequest "10000".toList "12000".toList)).response
      = some (.page "aBobb7c10000d10e1000f10000g9000h3000i".toList) := by
  refine ⟨?_, ?_, ?_, ?_⟩ <;> decide

end MLC
